import Mathlib

/-!
Shallow embedding of the OlympiadQR backend (`src/backend/src/olimpqr`).

Conventions used throughout:
* `Uuid` values are modelled as `Nat` (opaque identifiers).
* `datetime` values are modelled as `Nat` ticks (UTC instants); `datetime.utcnow()`
  becomes an explicit `now : Nat` parameter.
* Python `float` confidences are modelled as `Rat`.
* Python exceptions become `Except` values carrying an error kind.
-/

namespace OQR

abbrev Uuid := Nat
abbrev Instant := Nat

/-! ### Value objects (`domain/value_objects`) -/

/-- `CompetitionStatus` from `competition_status.py`. -/
inductive CompetitionStatus where
  | draft
  | registrationOpen
  | inProgress
  | checking
  | published
deriving DecidableEq, Repr

/-- `RegistrationStatus` from `registration_status.py`. -/
inductive RegistrationStatus where
  | pending
  | admitted
  | completed
  | cancelled
deriving DecidableEq, Repr

/-- `AttemptStatus` from `attempt_status.py`. -/
inductive AttemptStatus where
  | printed
  | scanned
  | scored
  | published
  | invalidated
deriving DecidableEq, Repr

/-- `AttemptStatus.can_apply_score`: status in (PRINTED, SCANNED, SCORED). -/
def AttemptStatus.can_apply_score : AttemptStatus → Bool
  | .printed => true
  | .scanned => true
  | .scored => true
  | _ => false

/-- `AttemptStatus.has_score`: status in (SCORED, PUBLISHED). -/
def AttemptStatus.has_score : AttemptStatus → Bool
  | .scored => true
  | .published => true
  | _ => false

/-- `SheetKind` from `sheet_kind.py`. -/
inductive SheetKind where
  | primary
  | extra
deriving DecidableEq, Repr

/-! ### `EntryToken` entity (`domain/entities/entry_token.py`) -/

/-- `EntryToken` dataclass.  `token_hash` is the HMAC hex digest (a string),
`raw_token` is optional, `used_at` is `None` until the token is used. -/
structure EntryToken where
  token_hash : String
  registration_id : Uuid
  expires_at : Instant
  id : Uuid
  raw_token : Option String := none
  used_at : Option Instant := none
deriving DecidableEq, Repr

/-- `EntryToken.is_expired`: `datetime.utcnow() > self.expires_at`. -/
def EntryToken.is_expired (t : EntryToken) (now : Instant) : Bool :=
  now > t.expires_at

/-- `EntryToken.is_used`: `self.used_at is not None`. -/
def EntryToken.is_used (t : EntryToken) : Bool :=
  t.used_at.isSome

/-- `EntryToken.is_valid`: not expired and not used. -/
def EntryToken.is_valid (t : EntryToken) (now : Instant) : Bool :=
  !t.is_expired now && !t.is_used

/-- `EntryToken.use()`: raises if already used, then if expired; otherwise sets
`used_at = utcnow()`. -/
def EntryToken.use (t : EntryToken) (now : Instant) : Except String EntryToken :=
  if t.used_at.isSome then
    .error "Токен уже использован"
  else if t.is_expired now then
    .error "Срок действия токена истёк"
  else
    .ok { t with used_at := some now }

/-! ### `Registration` entity (`domain/entities/registration.py`) -/

structure Registration where
  participant_id : Uuid
  competition_id : Uuid
  id : Uuid
  status : RegistrationStatus := .pending
deriving DecidableEq, Repr

/-- `Registration.admit()`: only from PENDING. -/
def Registration.admit (r : Registration) : Except String Registration :=
  if r.status ≠ .pending then
    .error "Can only admit from pending status"
  else
    .ok { r with status := .admitted }

/-- `Registration.complete()`: only from ADMITTED. -/
def Registration.complete (r : Registration) : Except String Registration :=
  if r.status ≠ .admitted then
    .error "Can only complete from admitted status"
  else
    .ok { r with status := .completed }

/-- `Registration.cancel()`: any non-cancelled status. -/
def Registration.cancel (r : Registration) : Except String Registration :=
  if r.status = .cancelled then
    .error "Registration is already cancelled"
  else
    .ok { r with status := .cancelled }

/-! ### `Attempt` entity (`domain/entities/attempt.py`) -/

/-- `Attempt` dataclass.  `score_total : int | None` is modelled as `Option Int`,
`confidence : float | None` as `Option Rat`. -/
structure Attempt where
  registration_id : Uuid
  variant_number : Int
  sheet_token_hash : String
  id : Uuid
  status : AttemptStatus := .printed
  score_total : Option Int := none
  confidence : Option Rat := none
  pdf_file_path : Option String := none
deriving DecidableEq, Repr

/-- `Attempt.__post_init__` variant check followed by field initialisation:
building an `Attempt` raises when `variant_number < 1`. -/
def Attempt.create (registration_id : Uuid) (variant_number : Int)
    (sheet_token_hash : String) (id : Uuid) : Except String Attempt :=
  if variant_number < 1 then
    .error "Variant number must be positive"
  else
    .ok { registration_id, variant_number, sheet_token_hash, id }

/-- `Attempt.mark_scanned()`: only from PRINTED. -/
def Attempt.mark_scanned (a : Attempt) : Except String Attempt :=
  if a.status ≠ .printed then
    .error "Can only scan printed attempts"
  else
    .ok { a with status := .scanned }

/-- Python `confidence is None or (0.0 <= confidence <= 1.0)` helper. -/
def confidenceInRange : Option Rat → Bool
  | none => true
  | some c => decide ((0 : Rat) ≤ c) && decide (c ≤ (1 : Rat))

/-- `Attempt.apply_score(score, confidence)`: requires `status.can_apply_score`,
`score ≥ 0`, and confidence in `[0, 1]` when present. -/
def Attempt.apply_score (a : Attempt) (score : Int) (confidence : Option Rat) :
    Except String Attempt :=
  if !a.status.can_apply_score then
    .error "Cannot apply score in this status"
  else if score < 0 then
    .error "Score cannot be negative"
  else if !confidenceInRange confidence then
    .error "Confidence must be between 0.0 and 1.0"
  else
    .ok { a with score_total := some score, confidence := confidence, status := .scored }

/-- `Attempt.publish()`: requires `status.has_score`. -/
def Attempt.publish (a : Attempt) : Except String Attempt :=
  if !a.status.has_score then
    .error "Cannot publish attempt without score"
  else
    .ok { a with status := .published }

/-- `Attempt.invalidate()`: always succeeds. -/
def Attempt.invalidate (a : Attempt) : Except String Attempt :=
  .ok { a with status := .invalidated }

/-! ### SHA-256 and HMAC (the `hashlib`/`hmac` primitives used by
`domain/services/token_service.py`).  Bytes are `Nat`s below 256, 32-bit words
are `Nat`s reduced modulo `2^32`. -/

def M32 : Nat := 4294967296

def add32 (a b : Nat) : Nat := (a + b) % M32

/-- Rotate a 32-bit word right by `n` (0 < n < 32, x < 2^32). -/
def rotr32 (n x : Nat) : Nat := (x / 2 ^ n + x % 2 ^ n * 2 ^ (32 - n)) % M32

def shr32 (n x : Nat) : Nat := x / 2 ^ n

def not32 (x : Nat) : Nat := x ^^^ 4294967295

def sha256Ch (e f g : Nat) : Nat := (e &&& f) ^^^ (not32 e &&& g)

def sha256Maj (a b c : Nat) : Nat := (a &&& b) ^^^ (a &&& c) ^^^ (b &&& c)

def sha256S0 (x : Nat) : Nat := rotr32 2 x ^^^ rotr32 13 x ^^^ rotr32 22 x

def sha256S1 (x : Nat) : Nat := rotr32 6 x ^^^ rotr32 11 x ^^^ rotr32 25 x

def sha256s0 (x : Nat) : Nat := rotr32 7 x ^^^ rotr32 18 x ^^^ shr32 3 x

def sha256s1 (x : Nat) : Nat := rotr32 17 x ^^^ rotr32 19 x ^^^ shr32 10 x

/-- The 64 SHA-256 round constants. -/
def sha256K : List Nat :=
  [1116352408, 1899447441, 3049323471, 3921009573,
   961987163, 1508970993, 2453635748, 2870763221,
   3624381080, 310598401, 607225278, 1426881987,
   1925078388, 2162078206, 2614888103, 3248222580,
   3835390401, 4022224774, 264347078, 604807628,
   770255983, 1249150122, 1555081692, 1996064986,
   2554220882, 2821834349, 2952996808, 3210313671,
   3336571891, 3584528711, 113926993, 338241895,
   666307205, 773529912, 1294757372, 1396182291,
   1695183700, 1986661051, 2177026350, 2456956037,
   2730485921, 2820302411, 3259730800, 3345764771,
   3516065817, 3600352804, 4094571909, 275423344,
   430227734, 506948616, 659060556, 883997877,
   958139571, 1322822218, 1537002063, 1747873779,
   1955562222, 2024104815, 2227730452, 2361852424,
   2428436474, 2756734187, 3204031479, 3329325298]

/-- Working state of one SHA-256 compression. -/
structure Hash8 where
  a : Nat
  b : Nat
  c : Nat
  d : Nat
  e : Nat
  f : Nat
  g : Nat
  h : Nat
deriving Repr

/-- Initial SHA-256 hash value. -/
def sha256H0 : Hash8 :=
  ⟨1779033703, 3144134277, 1013904242, 2773480762,
   1359893119, 2600822924, 528734635, 1541459225⟩

/-- Big-endian 32-bit word from 4 bytes. -/
def word4 (a b c d : Nat) : Nat := ((a * 256 + b) * 256 + c) * 256 + d

/-- Split a byte list into big-endian 32-bit words. -/
def bytesToWords : List Nat → List Nat
  | a :: b :: c :: d :: rest => word4 a b c d :: bytesToWords rest
  | _ => []

/-- One message-schedule extension step: append
`w[i-16] + s0(w[i-15]) + w[i-7] + s1(w[i-2])` (mod 2^32). -/
def scheduleStep (w : Array Nat) : Array Nat :=
  let i := w.size
  w.push (add32 (add32 (w.getD (i - 16) 0) (sha256s0 (w.getD (i - 15) 0)))
               (add32 (w.getD (i - 7) 0) (sha256s1 (w.getD (i - 2) 0))))

/-- Message schedule: the first 16 words extended to 64. -/
def sha256Schedule (block : List Nat) : List Nat :=
  (scheduleStep^[48] (bytesToWords block).toArray).toList

/-- One SHA-256 compression round. -/
def sha256Round (s : Hash8) (kw : Nat × Nat) : Hash8 :=
  let t1 := add32 s.h (add32 (sha256S1 s.e) (add32 (sha256Ch s.e s.f s.g) (add32 kw.1 kw.2)))
  let t2 := add32 (sha256S0 s.a) (sha256Maj s.a s.b s.c)
  ⟨add32 t1 t2, s.a, s.b, s.c, add32 s.d t1, s.e, s.f, s.g⟩

/-- Compress one 64-byte block into the running hash. -/
def sha256Compress (h : Hash8) (block : List Nat) : Hash8 :=
  let w := sha256Schedule block
  let s := (sha256K.zip w).foldl sha256Round h
  ⟨add32 h.a s.a, add32 h.b s.b, add32 h.c s.c, add32 h.d s.d,
   add32 h.e s.e, add32 h.f s.f, add32 h.g s.g, add32 h.h s.h⟩

/-- Big-endian 8-byte encoding of a length (in bits). -/
def lenBytes8 (n : Nat) : List Nat :=
  [n / 2 ^ 56 % 256, n / 2 ^ 48 % 256, n / 2 ^ 40 % 256, n / 2 ^ 32 % 256,
   n / 2 ^ 24 % 256, n / 2 ^ 16 % 256, n / 2 ^ 8 % 256, n % 256]

/-- SHA-256 padding: `0x80`, zeros to 56 mod 64, then the 64-bit bit length. -/
def sha256Pad (msg : List Nat) : List Nat :=
  let L := msg.length
  let k := (119 - L % 64) % 64
  msg ++ 0x80 :: List.replicate k 0 ++ lenBytes8 (8 * L)

/-- Split a list into chunks of 64 elements (`fuel` bounds the number of
chunks; `l.length` is always enough fuel since every chunk is non-empty). -/
def chunks64Fuel : Nat → List Nat → List (List Nat)
  | 0, _ => []
  | fuel + 1, l =>
    if l.isEmpty then []
    else l.take 64 :: chunks64Fuel fuel (l.drop 64)

/-- Split a list into chunks of 64 elements. -/
def chunks64 (l : List Nat) : List (List Nat) :=
  chunks64Fuel l.length l

/-- Big-endian 4-byte encoding of a 32-bit word. -/
def wordBytes (x : Nat) : List Nat :=
  [x / 2 ^ 24 % 256, x / 2 ^ 16 % 256, x / 2 ^ 8 % 256, x % 256]

/-- SHA-256 digest (32 bytes) of a byte string. -/
def sha256Bytes (msg : List Nat) : List Nat :=
  let hh := (chunks64 (sha256Pad msg)).foldl sha256Compress sha256H0
  wordBytes hh.a ++ wordBytes hh.b ++ wordBytes hh.c ++ wordBytes hh.d ++
  wordBytes hh.e ++ wordBytes hh.f ++ wordBytes hh.g ++ wordBytes hh.h

/-- HMAC-SHA256 (RFC 2104, block size 64) over byte strings. -/
def hmacSha256 (key msg : List Nat) : List Nat :=
  let k0 := if key.length > 64 then sha256Bytes key else key
  let kpad := k0 ++ List.replicate (64 - k0.length) 0
  let inner := sha256Bytes ((kpad.map (fun b => b ^^^ 0x36)) ++ msg)
  sha256Bytes ((kpad.map (fun b => b ^^^ 0x5c)) ++ inner)

/-- UTF-8 encoding of one Unicode code point. -/
def utf8EncodeChar (c : Nat) : List Nat :=
  if c < 0x80 then [c]
  else if c < 0x800 then [0xC0 + c / 0x40, 0x80 + c % 0x40]
  else if c < 0x10000 then
    [0xE0 + c / 0x1000, 0x80 + c / 0x40 % 0x40, 0x80 + c % 0x40]
  else
    [0xF0 + c / 0x40000, 0x80 + c / 0x1000 % 0x40, 0x80 + c / 0x40 % 0x40,
     0x80 + c % 0x40]

/-- Python `str.encode('utf-8')`. -/
def strBytes (s : String) : List Nat :=
  (s.data.map (fun c => utf8EncodeChar c.toNat)).flatten

/-- Lowercase hex character for a nibble. -/
def hexChar (n : Nat) : Char :=
  if n < 10 then Char.ofNat (48 + n) else Char.ofNat (87 + n)

/-- Two lowercase hex characters for a byte. -/
def byteHexChars (b : Nat) : List Char :=
  [hexChar (b / 16), hexChar (b % 16)]

/-- Python `hexdigest()`: lowercase hex string of a byte list. -/
def hexDigest (bs : List Nat) : String :=
  ⟨(bs.map byteHexChars).flatten⟩

/-! ### `TokenService` (`domain/services/token_service.py`).
The service is parametrised by its `secret_key` string. -/

/-- `TokenService.__init__` acceptance: `secret_key` truthy and at least 32
characters long. -/
def secretKeyOk (key : String) : Bool :=
  !key.isEmpty && decide (32 ≤ key.length)

/-- `TokenService._compute_hash` / `hash_token`: lowercase-hex HMAC-SHA256 of
the UTF-8 bytes of `raw_token` under the UTF-8 bytes of `secret_key`. -/
def computeHashHex (key raw : String) : String :=
  hexDigest (hmacSha256 (strBytes key) (strBytes raw))

/-- `TokenService.verify_token`: false on any empty input, otherwise the
recomputed hash is compared to `stored_hash` (`hmac.compare_digest`). -/
def verify_token (key raw_token stored_hash : String) : Bool :=
  if raw_token.isEmpty || stored_hash.isEmpty then false
  else computeHashHex key raw_token == stored_hash

/-! ### Remaining entities used by the workflows -/

/-- `Participant` entity (`domain/entities/participant.py`), restricted to the
fields the embedded workflows read. -/
structure Participant where
  user_id : Uuid
  full_name : String
  school : String
  grade : Option Int := none
  institution_id : Option Uuid := none
  id : Uuid
deriving DecidableEq, Repr

/-- `Room` entity (`domain/entities/room.py`): `capacity ≥ 1` is validated at
construction; modelled as an `Int` field. -/
structure Room where
  competition_id : Uuid
  name : String
  capacity : Int
  id : Uuid
deriving DecidableEq, Repr

/-- `SeatAssignment` entity (`domain/entities/seat_assignment.py`). -/
structure SeatAssignment where
  registration_id : Uuid
  room_id : Uuid
  seat_number : Nat
  variant_number : Nat
  id : Uuid
deriving DecidableEq, Repr

/-- `SeatAssignment.__post_init__`: seat and variant numbers must be ≥ 1. -/
def SeatAssignment.create (registration_id room_id : Uuid)
    (seat_number variant_number : Nat) (id : Uuid) : Except String SeatAssignment :=
  if seat_number < 1 then
    .error "Номер места должен быть положительным"
  else if variant_number < 1 then
    .error "Номер варианта должен быть положительным"
  else
    .ok { registration_id, room_id, seat_number, variant_number, id }

/-- `Competition` entity (`domain/entities/competition.py`), restricted to the
fields the embedded workflows read (the registration window and dates feed
only `__post_init__` validation). -/
structure Competition where
  name : String
  variants_count : Nat
  max_score : Int
  created_by : Uuid
  id : Uuid
  status : CompetitionStatus := .draft
deriving DecidableEq, Repr

/-- `Competition.is_in_progress`. -/
def Competition.is_in_progress (c : Competition) : Bool :=
  c.status = CompetitionStatus.inProgress

/-- `AnswerSheet` entity (`domain/entities/answer_sheet.py`). -/
structure AnswerSheet where
  attempt_id : Uuid
  sheet_token_hash : String
  kind : SheetKind
  id : Uuid
  pdf_file_path : Option String := none
deriving DecidableEq, Repr

/-- `AuditLog.create_log` payload for the admission workflow (the `details`
dict of `approve_admission.py` step 13). -/
structure AuditLog where
  entity_type : String
  entity_id : Uuid
  action : String
  user_id : Option Uuid
  ip_address : Option String
  variant_number : Nat
  attempt_id : Uuid
  room_name : Option String
  seat_number : Option Nat
deriving DecidableEq, Repr

/-! ### Seating scheduler (`application/use_cases/seating/assign_seat.py`)

The repositories consulted by `AssignSeatUseCase` are modelled as in-memory
lists with the lookup semantics of
`infrastructure/repositories/seat_assignment_repository_impl.py`. -/

structure SeatingDB where
  rooms : List Room
  seats : List SeatAssignment
  registrations : List Registration
  participants : List Participant
deriving Repr

/-- `SeatAssignmentRepository.get_by_registration`. -/
def SeatingDB.seatByRegistration (db : SeatingDB) (registration_id : Uuid) :
    Option SeatAssignment :=
  db.seats.find? (fun a => a.registration_id == registration_id)

/-- `RoomRepository.get_by_competition`. -/
def SeatingDB.roomsByCompetition (db : SeatingDB) (competition_id : Uuid) : List Room :=
  db.rooms.filter (fun r => r.competition_id == competition_id)

/-- `SeatAssignmentRepository.count_by_room`: number of seat assignments in the
room. -/
def SeatingDB.countByRoom (db : SeatingDB) (room_id : Uuid) : Nat :=
  (db.seats.filter (fun a => a.room_id == room_id)).length

/-- `SeatAssignmentRepository.count_by_room_and_institution`: count of join
rows `SeatAssignment ⋈ Registration ⋈ Participant` restricted to the room and
the institution. -/
def SeatingDB.countByRoomAndInstitution (db : SeatingDB) (room_id institution_id : Uuid) :
    Nat :=
  ((db.seats.filter (fun a => a.room_id == room_id)).flatMap (fun a =>
    (db.registrations.filter (fun r => r.id == a.registration_id)).flatMap (fun r =>
      db.participants.filter (fun p =>
        r.participant_id == p.id && p.institution_id == some institution_id)))).length

/-- `same_institution_count` for one room (0 when the participant has no
institution, mirroring the `if institution_id:` truthiness test). -/
def SeatingDB.sameInstCount (db : SeatingDB) (inst : Option Uuid) (room : Room) : Nat :=
  match inst with
  | some i => db.countByRoomAndInstitution room.id i
  | none => 0

/-- `free_seats = capacity − occupied` for one room. -/
def SeatingDB.freeSeats (db : SeatingDB) (room : Room) : Int :=
  room.capacity - (db.countByRoom room.id : Int)

/-- `taken_seats = {a.seat_number for a in room_assignments}`: the seat
numbers already taken in a room. -/
def SeatingDB.takenSeats (db : SeatingDB) (room_id : Uuid) : List Nat :=
  (db.seats.filter (fun a => a.room_id == room_id)).map (fun a => a.seat_number)

/-- Loop state of the room-selection loop: `best_room = None`,
`best_same_inst = float('inf')` (modelled as `none`), `best_free_seats = -1`. -/
structure RoomAcc where
  best_room : Option Room
  best_same : Option Nat
  best_free : Int
deriving Repr

/-- The update condition
`same_inst < best_same_inst or (same_inst == best_same_inst and free_seats > best_free_seats)`. -/
def roomBetter (same : Nat) (free : Int) (acc : RoomAcc) : Bool :=
  match acc.best_same with
  | none => true
  | some bs => same < bs || (same == bs && free > acc.best_free)

/-- One iteration of the room loop: skip full rooms, otherwise keep the
lexicographically better room. -/
def roomStep (db : SeatingDB) (inst : Option Uuid) (acc : RoomAcc) (room : Room) :
    RoomAcc :=
  let free := db.freeSeats room
  if free ≤ 0 then acc
  else
    let same := db.sameInstCount inst room
    if roomBetter same free acc then ⟨some room, some same, free⟩ else acc

/-- The room-selection loop over all rooms of the competition. -/
def selectRoom (db : SeatingDB) (rooms : List Room) (inst : Option Uuid) : Option Room :=
  (rooms.foldl (roomStep db inst) ⟨none, none, -1⟩).best_room

/-- The `while seat_number in taken_seats: seat_number += 1` loop, with an
explicit fuel argument (the loop terminates because `taken` is finite). -/
def nextFreeFrom (taken : List Nat) : Nat → Nat → Nat
  | 0, s => s
  | fuel + 1, s => if taken.contains s then nextFreeFrom taken fuel (s + 1) else s

/-- Find the next available seat number, starting at 1. -/
def findNextSeat (taken : List Nat) : Nat :=
  nextFreeFrom taken (taken.length + 1) 1

inductive SeatError where
  | registrationNotFound
  | participantNotFound
  | noFreeSeats
  | invalidAssignment (msg : String)
deriving DecidableEq, Repr

structure AssignSeatResult where
  seat_assignment_id : Uuid
  room_id : Uuid
  room_name : String
  seat_number : Nat
  variant_number : Nat
deriving DecidableEq, Repr

/-- `AssignSeatUseCase.execute`.  Returns the updated seat-assignment table
together with the result (`none` models the Python `None` return when the
competition has no rooms).  `newId` stands for the generated assignment id. -/
def assignSeat (db : SeatingDB) (registration_id competition_id : Uuid)
    (variants_count : Nat) (newId : Uuid) :
    Except SeatError (List SeatAssignment × Option AssignSeatResult) :=
  match db.seatByRegistration registration_id with
  | some existing =>
    let room := db.rooms.find? (fun r => r.id == existing.room_id)
    .ok (db.seats, some ⟨existing.id, existing.room_id,
      (match room with | some r => r.name | none => "?"),
      existing.seat_number, existing.variant_number⟩)
  | none =>
    let rooms := db.roomsByCompetition competition_id
    if rooms.isEmpty then .ok (db.seats, none)
    else
      match db.registrations.find? (fun r => r.id == registration_id) with
      | none => .error .registrationNotFound
      | some registration =>
        match db.participants.find? (fun p => p.id == registration.participant_id) with
        | none => .error .participantNotFound
        | some participant =>
          match selectRoom db rooms participant.institution_id with
          | none => .error .noFreeSeats
          | some best_room =>
            let taken := db.takenSeats best_room.id
            let seat_number := findNextSeat taken
            let variant_number := seat_number % variants_count + 1
            match SeatAssignment.create registration_id best_room.id seat_number
                variant_number newId with
            | .error e => .error (.invalidAssignment e)
            | .ok assignment =>
              .ok (db.seats ++ [assignment],
                some ⟨assignment.id, best_room.id, best_room.name, seat_number,
                  variant_number⟩)

/-! ### Admission workflow (`application/use_cases/admission`) -/

inductive AdmissionError where
  | emptyToken
  | tokenNotFound
  | tokenExpired
  | tokenUsed
  | tokenMismatch
  | registrationNotFound
  | competitionNotFound
  | invalidState (msg : String)
  | seatingFailed (e : SeatError)
deriving DecidableEq, Repr

/-- The token checks of `VerifyEntryQRUseCase.execute` (steps 2–4): not found,
then expired, then already used. -/
def verifyTokenChecks (lookup : Option EntryToken) (now : Instant) :
    Except AdmissionError EntryToken :=
  match lookup with
  | none => .error .tokenNotFound
  | some entry_token =>
    if entry_token.is_expired now then .error .tokenExpired
    else if entry_token.is_used then .error .tokenUsed
    else .ok entry_token

/-- The token checks of `ApproveAdmissionUseCase.execute` (step 1): not found,
then already used, then expired, then registration mismatch. -/
def approveTokenChecks (lookup : Option EntryToken) (now : Instant)
    (registration_id : Uuid) : Except AdmissionError EntryToken :=
  match lookup with
  | none => .error .tokenNotFound
  | some entry_token =>
    if entry_token.is_used then .error .tokenUsed
    else if entry_token.is_expired now then .error .tokenExpired
    else if entry_token.registration_id ≠ registration_id then .error .tokenMismatch
    else .ok entry_token

/-- The database state seen by the admission workflow, one list per
repository. -/
structure AdmissionDB where
  entry_tokens : List EntryToken
  registrations : List Registration
  competitions : List Competition
  attempts : List Attempt
  answer_sheets : List AnswerSheet
  rooms : List Room
  seats : List SeatAssignment
  participants : List Participant
  audit_logs : List AuditLog
deriving Repr

/-- `EntryTokenRepository.get_by_token_hash`. -/
def AdmissionDB.entryTokenByHash (db : AdmissionDB) (h : String) : Option EntryToken :=
  db.entry_tokens.find? (fun t => t.token_hash == h)

/-- Repository `update`: replace the row with the same id. -/
def updateEntryToken (l : List EntryToken) (t : EntryToken) : List EntryToken :=
  l.map (fun x => if x.id == t.id then t else x)

/-- Repository `update`: replace the row with the same id. -/
def updateRegistration (l : List Registration) (r : Registration) : List Registration :=
  l.map (fun x => if x.id == r.id then r else x)

/-- The token checks of `VerifyEntryQRUseCase.execute` including the leading
empty-token guard and the hash computation (steps 0–4). -/
def verifyEntryQRChecks (key : String) (db : AdmissionDB) (raw_token : String)
    (now : Instant) : Except AdmissionError EntryToken :=
  if raw_token.isEmpty then .error .emptyToken
  else
    let token_hash := computeHashHex key raw_token
    verifyTokenChecks (db.entryTokenByHash token_hash) now

/-- Result record of `ApproveAdmissionUseCase`. -/
structure ApproveAdmissionResult where
  attempt_id : Uuid
  variant_number : Nat
  pdf_url : String
  sheet_token : String
  room_name : Option String
  seat_number : Option Nat
deriving DecidableEq, Repr

/-- Non-deterministic inputs of one `ApproveAdmissionUseCase.execute` run:
the current time, the generated sheet token (`secrets.token_urlsafe`), the
`uuid4()` ids, and the `random.randint(1, variants_count)` fallback
variant. -/
structure ApproveOracle where
  now : Instant
  sheet_token_raw : String
  attempt_id : Uuid
  answer_sheet_id : Uuid
  seat_assignment_id : Uuid
  random_variant : Nat
deriving Repr

/-- `ApproveAdmissionUseCase.execute` (the seat-aware version of
`approve_admission.py`, with all seating repositories wired). -/
def approveAdmission (key : String) (db : AdmissionDB) (o : ApproveOracle)
    (registration_id : Uuid) (raw_entry_token : String) (admitter_user_id : Uuid)
    (ip_address : Option String) :
    Except AdmissionError (AdmissionDB × ApproveAdmissionResult) := do
  -- 1. Verify token again (double-check)
  let token_hash := computeHashHex key raw_entry_token
  let entry_token ← approveTokenChecks (db.entryTokenByHash token_hash) o.now
    registration_id
  -- 2. Mark entry token as used
  let entry_token ← (entry_token.use o.now).mapError .invalidState
  let db := { db with entry_tokens := updateEntryToken db.entry_tokens entry_token }
  -- 3. Update registration status
  let registration ←
    match db.registrations.find? (fun r => r.id == registration_id) with
    | none => .error .registrationNotFound
    | some r => .ok r
  let registration ← registration.admit.mapError .invalidState
  let db := { db with registrations := updateRegistration db.registrations registration }
  -- 4. Get competition for variant count
  let competition ←
    match db.competitions.find? (fun c => c.id == registration.competition_id) with
    | none => .error .competitionNotFound
    | some c => .ok c
  -- 5. Seating algorithm (room/seat/participant repositories are wired)
  let seated ← (assignSeat ⟨db.rooms, db.seats, db.registrations, db.participants⟩
    registration_id registration.competition_id competition.variants_count
    o.seat_assignment_id).mapError .seatingFailed
  let db := { db with seats := seated.1 }
  let (room_name, seat_number, variant_number) :=
    match seated.2 with
    | some sr => (some sr.room_name, some sr.seat_number, sr.variant_number)
    | none => (none, none, o.random_variant)
  -- 6. Generate sheet token
  let sheet_token_hash := computeHashHex key o.sheet_token_raw
  -- 7. Create attempt
  let attempt ← (Attempt.create registration_id variant_number sheet_token_hash
    o.attempt_id).mapError .invalidState
  -- 8./9. Generate the PDF and upload it to the object store (external I/O);
  -- only the object key matters to the database state.
  let object_name := "sheets/" ++ toString competition.id ++ "/" ++
    toString attempt.id ++ ".pdf"
  -- 10. Save attempt with file path
  let attempt := { attempt with pdf_file_path := some object_name }
  let db := { db with attempts := db.attempts ++ [attempt] }
  -- 11. Create AnswerSheet(kind=primary)
  let answer_sheet : AnswerSheet :=
    { attempt_id := attempt.id, sheet_token_hash := sheet_token_hash,
      kind := .primary, id := o.answer_sheet_id, pdf_file_path := some object_name }
  let db := { db with answer_sheets := db.answer_sheets ++ [answer_sheet] }
  -- 12. Mark registration as completed (sheet given)
  let registration ← registration.complete.mapError .invalidState
  let db := { db with registrations := updateRegistration db.registrations registration }
  -- 13. Audit log
  let audit : AuditLog :=
    { entity_type := "registration", entity_id := registration_id,
      action := "admitted", user_id := some admitter_user_id,
      ip_address := ip_address, variant_number := variant_number,
      attempt_id := attempt.id, room_name := room_name, seat_number := seat_number }
  let db := { db with audit_logs := db.audit_logs ++ [audit] }
  -- 14. Result with backend download URL
  let result : ApproveAdmissionResult :=
    { attempt_id := attempt.id, variant_number := variant_number,
      pdf_url := "admission/sheets/" ++ toString attempt.id ++ "/download",
      sheet_token := o.sheet_token_raw, room_name := room_name,
      seat_number := seat_number }
  .ok (db, result)

/-! ### OCR worker (`infrastructure/tasks/ocr_tasks.py`)

`process_scan_ocr` steps 3–6, i.e. the database effect of one successful run
(the vision calls, `extract_qr_from_image` and `extract_score_from_image`, are
external and enter as the inputs `qr_data` and `ocr_result`). -/

/-- `Scan` row, restricted to the fields the worker touches. -/
structure Scan where
  id : Uuid
  file_path : String
  attempt_id : Option Uuid := none
  ocr_score : Option Int := none
  ocr_confidence : Option Rat := none
  ocr_raw_text : Option String := none
deriving DecidableEq, Repr

/-- `OCRResult` from `infrastructure/ocr/paddle_ocr.py`: `score` may be null,
`confidence` is always a float. -/
structure OCRResult where
  score : Option Int
  confidence : Rat
  raw_text : String
deriving DecidableEq, Repr

/-- Repository-level `update` of an attempt row (the ORM flushes the mutated
`AttemptModel` on commit). -/
def updateAttempt (l : List Attempt) (a : Attempt) : List Attempt :=
  l.map (fun x => if x.id == a.id then a else x)

/-- `process_scan_ocr` steps 3–6: link the scan to the attempt found by the
QR sheet-token hash, write the OCR fields to the scan, and either auto-apply
the score (writing `score_total`, `confidence` and `status = SCORED` directly
on the attempt row) or bump `PRINTED` to `SCANNED`.  Returns the updated scan
row and attempts table. -/
def processScanOcrCore (key : String) (attempts : List Attempt) (scan : Scan)
    (qr_data : Option String) (ocr_result : OCRResult) (threshold : Rat) :
    Scan × List Attempt :=
  -- 3. Extract QR code → find Attempt
  let attempt_model : Option Attempt :=
    match qr_data with
    | none => none
    | some q => attempts.find? (fun a => a.sheet_token_hash == computeHashHex key q)
  let scan :=
    match attempt_model with
    | some am =>
      if scan.attempt_id.isNone then { scan with attempt_id := some am.id } else scan
    | none => scan
  -- 5. Update scan with OCR results
  let scan :=
    { scan with
      ocr_score := ocr_result.score,
      ocr_confidence := some ocr_result.confidence,
      ocr_raw_text := some ocr_result.raw_text }
  -- 6. Auto-apply or bump to SCANNED
  let attempts :=
    match attempt_model with
    | some am =>
      if ocr_result.score.isSome && decide (ocr_result.confidence ≥ threshold) then
        updateAttempt attempts
          { am with
            score_total := ocr_result.score,
            confidence := some ocr_result.confidence, status := .scored }
      else if am.status = .printed then
        updateAttempt attempts { am with status := .scanned }
      else attempts
    | none => attempts
  (scan, attempts)

/-! ### Public results endpoint (`presentation/api/v1/results.py`) -/

inductive ResultsError where
  | competitionNotFound
  | resultsNotPublished
deriving DecidableEq, Repr

structure ResultRow where
  score_total : Option Int
  full_name : String
  school : String
  grade : Option Int
deriving DecidableEq, Repr

structure ResultEntry where
  rank : Nat
  participant_name : String
  school : String
  grade : Option Int
  score : Option Int
  max_score : Int
deriving DecidableEq, Repr

structure CompetitionResultsResponse where
  competition_id : Uuid
  competition_name : String
  results : List ResultEntry
  total_participants : Nat
deriving DecidableEq, Repr

/-- The SQL query of `get_published_results`:
`Attempt ⋈ Registration ⋈ Participant`, restricted to the competition, to
`status ∈ {SCORED, PUBLISHED}` and to `score_total IS NOT NULL` (rows before
ordering). -/
def resultsQueryRows (db : AdmissionDB) (competition_id : Uuid) : List ResultRow :=
  db.attempts.flatMap (fun a =>
    (db.registrations.filter (fun r =>
      a.registration_id == r.id && r.competition_id == competition_id)).flatMap
      (fun r =>
        (db.participants.filter (fun p => r.participant_id == p.id)).filterMap
          (fun p =>
            if (a.status == .scored || a.status == .published) && a.score_total.isSome
            then some ⟨a.score_total, p.full_name, p.school, p.grade⟩
            else none)))

/-- `ORDER BY score_total DESC` (the relative order of equal scores is not
fixed by SQL; one admissible order is taken). -/
def sortRowsDesc (rows : List ResultRow) : List ResultRow :=
  List.insertionSort (fun x y => y.score_total.getD 0 ≤ x.score_total.getD 0) rows

/-- `get_published_results`: 404 for a missing competition, 403
(`ResultsNotPublished`) unless the competition status is PUBLISHED, otherwise
the sorted rows with `rank` assigned from 1 in iteration order. -/
def get_published_results (db : AdmissionDB) (competition_id : Uuid) :
    Except ResultsError CompetitionResultsResponse :=
  match db.competitions.find? (fun c => c.id == competition_id) with
  | none => .error .competitionNotFound
  | some competition =>
    if competition.status ≠ .published then .error .resultsNotPublished
    else
      let rows := sortRowsDesc (resultsQueryRows db competition_id)
      let entries := (rows.enumFrom 1).map (fun ir =>
        { rank := ir.1, participant_name := ir.2.full_name, school := ir.2.school,
          grade := ir.2.grade, score := ir.2.score_total,
          max_score := competition.max_score : ResultEntry })
      let response : CompetitionResultsResponse :=
        { competition_id := competition.id, competition_name := competition.name,
          results := entries, total_participants := entries.length }
      .ok response

/-! ### Participant-facing registration endpoints
(`presentation/api/v1/registrations.py`) -/

inductive HttpError where
  | notFound (msg : String)
  | forbidden
deriving DecidableEq, Repr

structure RegistrationResponse where
  id : Uuid
  participant_id : Uuid
  competition_id : Uuid
  status : RegistrationStatus
  entry_token : Option String
  attempt_id : Option Uuid := none
  variant_number : Option Int := none
  final_score : Option Int := none
deriving DecidableEq, Repr

/-- Python truthiness of the optional `raw_token` string: `None` and the empty
string are falsy. -/
def rawTokenTruthy : Option String → Bool
  | none => false
  | some s => !s.isEmpty

/-- `EntryTokenRepository.get_by_registration`. -/
def AdmissionDB.entryTokenByRegistration (db : AdmissionDB) (registration_id : Uuid) :
    Option EntryToken :=
  db.entry_tokens.find? (fun t => t.registration_id == registration_id)

/-- `AttemptRepository.get_by_registration`. -/
def AdmissionDB.attemptByRegistration (db : AdmissionDB) (registration_id : Uuid) :
    Option Attempt :=
  db.attempts.find? (fun a => a.registration_id == registration_id)

/-- `GET /registrations/{id}` (`get_registration`), after the authenticated
participant profile has been resolved: ownership check, then the raw entry
token with fall-back `str(registration.id)` when the token row is missing or
its `raw_token` is falsy. -/
def get_registration (db : AdmissionDB) (participant : Participant)
    (registration_id : Uuid) : Except HttpError RegistrationResponse :=
  match db.registrations.find? (fun r => r.id == registration_id) with
  | none => .error (.notFound "Регистрация не найдена")
  | some registration =>
    if registration.participant_id ≠ participant.id then .error .forbidden
    else
      let entry_token := db.entryTokenByRegistration registration_id
      let raw_token :=
        match entry_token with
        | some et =>
          if rawTokenTruthy et.raw_token then et.raw_token.getD ""
          else toString registration.id
        | none => toString registration.id
      let response : RegistrationResponse :=
        { id := registration.id, participant_id := registration.participant_id,
          competition_id := registration.competition_id,
          status := registration.status, entry_token := some raw_token }
      .ok response

/-- `GET /registrations` (`get_my_registrations`), after the authenticated
participant profile has been resolved.  Here a missing EntryToken row leaves
`entry_token = None`; a present row with falsy `raw_token` falls back to
`str(r.id)`. -/
def get_my_registrations (db : AdmissionDB) (participant : Participant)
    (skip limit : Nat) : List RegistrationResponse :=
  let registrations :=
    ((db.registrations.filter (fun r => r.participant_id == participant.id)).drop
      skip).take limit
  registrations.map (fun r =>
    let attempt := db.attemptByRegistration r.id
    let entry_token := db.entryTokenByRegistration r.id
    let raw_token : Option String :=
      match entry_token with
      | some et =>
        if rawTokenTruthy et.raw_token then et.raw_token
        else some (toString r.id)
      | none => none
    { id := r.id, participant_id := r.participant_id,
      competition_id := r.competition_id, status := r.status,
      entry_token := raw_token,
      attempt_id := attempt.map (fun a => a.id),
      variant_number := attempt.map (fun a => a.variant_number),
      final_score := attempt.bind (fun a => a.score_total) })

/-! ## Shared lemmas -/

lemma string_isEmpty_false {s : String} (h : s ≠ "") : s.isEmpty = false := by
  rw [Bool.eq_false_iff]
  intro hc
  exact h ((String.isEmpty_iff s).mp hc)

lemma sha256Bytes_length (m : List Nat) : (sha256Bytes m).length = 32 := by
  simp [sha256Bytes, wordBytes]

lemma hexDigest_length (bs : List Nat) : (hexDigest bs).length = 2 * bs.length := by
  unfold hexDigest
  show (List.flatten (bs.map byteHexChars)).length = 2 * bs.length
  induction bs with
  | nil => simp
  | cons b rest ih => simp [byteHexChars, ih]; ring

lemma hmacSha256_length (key msg : List Nat) : (hmacSha256 key msg).length = 32 := by
  simp [hmacSha256, sha256Bytes_length]

lemma computeHashHex_length (key raw : String) : (computeHashHex key raw).length = 64 := by
  unfold computeHashHex
  rw [hexDigest_length, hmacSha256_length]

lemma computeHashHex_ne_empty (key raw : String) : computeHashHex key raw ≠ "" := by
  intro h
  have := computeHashHex_length key raw
  rw [h] at this
  simp at this

/-! ## Claims -/

/-- **C2** (counterexample to the claim as stated): `use()` is claimed to
succeed only when `now` is strictly before `expires_at`, but `is_expired` is
`now > expires_at`, so at `now = expires_at` the token counts as non-expired
and `use()` succeeds. -/
theorem entry_token_use_at_expiry_boundary :
    ({ token_hash := "h", registration_id := 1, expires_at := 5, id := 2 } :
      EntryToken).use 5 =
      .ok { token_hash := "h", registration_id := 1, expires_at := 5, id := 2,
            used_at := some 5 } ∧
    ¬(5 < 5) := by
  constructor
  · rfl
  · decide

/-- **C2** (amended): `use()` succeeds exactly when `used_at` is null and
`now ≤ expires_at` (at most not-strictly-after expiry), setting
`used_at := now`; it fails otherwise; and a successful `use` cannot be
followed by another successful `use`. -/
theorem entry_token_use_spec (t : EntryToken) (now : Instant) :
    (t.used_at = none ∧ now ≤ t.expires_at →
      t.use now = .ok { t with used_at := some now }) ∧
    (t.used_at ≠ none ∨ t.expires_at < now → ∀ t2, t.use now ≠ .ok t2) ∧
    (∀ t2, t.use now = .ok t2 → ∀ later t3, t2.use later ≠ .ok t3) := by
  refine ⟨?_, ?_, ?_⟩
  · rintro ⟨h1, h2⟩
    simp [EntryToken.use, h1, EntryToken.is_expired, Nat.not_lt.mpr h2]
  · rintro (h | h) t2 hc
    · cases hu : t.used_at with
      | none => exact h hu
      | some v => simp [EntryToken.use, hu] at hc
    · cases hu : t.used_at with
      | none => simp [EntryToken.use, hu, EntryToken.is_expired, h] at hc
      | some v => simp [EntryToken.use, hu] at hc
  · intro t2 h2 later t3 hc
    cases hu : t.used_at with
    | some v => simp [EntryToken.use, hu] at h2
    | none =>
      simp only [EntryToken.use, hu, Option.isSome_none, Bool.false_eq_true,
        if_false] at h2
      split at h2
      · exact absurd h2 (by simp)
      · rw [Except.ok.injEq] at h2
        subst h2
        simp [EntryToken.use] at hc

/-- **C2** witness: a fresh token is used at time 4 (before expiry 9); a
second use fails; a use strictly after expiry fails. -/
theorem entry_token_use_spec_witness :
    ({ token_hash := "h", registration_id := 1, expires_at := 9, id := 2 } :
      EntryToken).use 4 =
      .ok { token_hash := "h", registration_id := 1, expires_at := 9, id := 2,
            used_at := some 4 } ∧
    ({ token_hash := "h", registration_id := 1, expires_at := 9, id := 2,
       used_at := some 4 } : EntryToken).use 6 ≠
      .ok { token_hash := "h", registration_id := 1, expires_at := 9, id := 2,
            used_at := some 6 } ∧
    ({ token_hash := "h", registration_id := 1, expires_at := 9, id := 2 } :
      EntryToken).use 12 ≠
      .ok { token_hash := "h", registration_id := 1, expires_at := 9, id := 2,
            used_at := some 12 } := by
  refine ⟨(entry_token_use_spec _ 4).1 ⟨rfl, by decide⟩, ?_, ?_⟩
  · exact (entry_token_use_spec _ 6).2.1 (Or.inl (by simp)) _
  · exact (entry_token_use_spec _ 12).2.1 (Or.inr (by decide)) _

/-- **C3** (counterexample to the claim as stated): for a token that is both
already used and expired, Verify reports the expiry error but Approve reports
the already-used error (Approve checks `is_used` before `is_expired`), so the
two operations do not share the claimed check order. -/
theorem token_check_order_counterexample :
    verifyTokenChecks
      (some { token_hash := "h", registration_id := 1, expires_at := 5, id := 2,
              used_at := some 3 }) 10 = .error .tokenExpired ∧
    approveTokenChecks
      (some { token_hash := "h", registration_id := 1, expires_at := 5, id := 2,
              used_at := some 3 }) 10 1 = .error .tokenUsed ∧
    AdmissionError.tokenUsed ≠ AdmissionError.tokenExpired := by
  refine ⟨rfl, rfl, by decide⟩

/-- **C3** (amended): Verify fails with TokenNotFound, then TokenExpired, then
TokenUsed, in that order; Approve fails with TokenNotFound, then TokenUsed,
then TokenExpired, then the registration-mismatch error, in that order.  In
particular a token that is both used and expired yields TokenExpired from
Verify but TokenUsed from Approve. -/
theorem token_check_order_spec (key : String) (db : AdmissionDB) (raw : String)
    (now : Instant) (rid : Uuid) (hraw : raw ≠ "") :
    (db.entryTokenByHash (computeHashHex key raw) = none →
      verifyEntryQRChecks key db raw now = .error .tokenNotFound ∧
      approveTokenChecks (db.entryTokenByHash (computeHashHex key raw)) now rid =
        .error .tokenNotFound) ∧
    (∀ t, db.entryTokenByHash (computeHashHex key raw) = some t →
      (t.is_expired now = true →
        verifyEntryQRChecks key db raw now = .error .tokenExpired) ∧
      (t.is_expired now = false → t.is_used = true →
        verifyEntryQRChecks key db raw now = .error .tokenUsed) ∧
      (t.is_expired now = false → t.is_used = false →
        verifyEntryQRChecks key db raw now = .ok t) ∧
      (t.is_used = true →
        approveTokenChecks (db.entryTokenByHash (computeHashHex key raw)) now rid =
          .error .tokenUsed) ∧
      (t.is_used = false → t.is_expired now = true →
        approveTokenChecks (db.entryTokenByHash (computeHashHex key raw)) now rid =
          .error .tokenExpired) ∧
      (t.is_used = false → t.is_expired now = false → t.registration_id ≠ rid →
        approveTokenChecks (db.entryTokenByHash (computeHashHex key raw)) now rid =
          .error .tokenMismatch) ∧
      (t.is_used = false → t.is_expired now = false → t.registration_id = rid →
        approveTokenChecks (db.entryTokenByHash (computeHashHex key raw)) now rid =
          .ok t)) := by
  have hne : raw.isEmpty = false := string_isEmpty_false hraw
  constructor
  · intro h
    constructor
    · simp [verifyEntryQRChecks, hne, h, verifyTokenChecks]
    · simp [h, approveTokenChecks]
  · intro t h
    refine ⟨?_, ?_, ?_, ?_, ?_, ?_, ?_⟩ <;>
      simp_all [verifyEntryQRChecks, hne, verifyTokenChecks, approveTokenChecks]

/-- An empty database, used as a base state for concrete witnesses. -/
def emptyAdmissionDB : AdmissionDB :=
  { entry_tokens := [], registrations := [], competitions := [], attempts := [],
    answer_sheets := [], rooms := [], seats := [], participants := [],
    audit_logs := [] }

/-- A stored entry token (for raw token `"tok"` under key `"k"`) that is both
already used and expired at time 10. -/
def usedExpiredToken : EntryToken :=
  { token_hash := computeHashHex "k" "tok", registration_id := 1,
    expires_at := 5, id := 2, used_at := some 3 }

/-- A database holding only `usedExpiredToken`. -/
def usedExpiredDB : AdmissionDB :=
  { emptyAdmissionDB with entry_tokens := [usedExpiredToken] }

/-- **C3** witness: concrete states exercising the check order, including the
used-and-expired token on which the two operations disagree. -/
theorem token_check_order_spec_witness :
    verifyEntryQRChecks "k" emptyAdmissionDB "tok" 10 = .error .tokenNotFound ∧
    verifyEntryQRChecks "k" usedExpiredDB "tok" 10 = .error .tokenExpired ∧
    approveTokenChecks
      (usedExpiredDB.entryTokenByHash (computeHashHex "k" "tok")) 10 1 =
      .error .tokenUsed := by
  have hfind : usedExpiredDB.entryTokenByHash (computeHashHex "k" "tok") =
      some usedExpiredToken := by
    simp [usedExpiredDB, AdmissionDB.entryTokenByHash, usedExpiredToken, List.find?]
  refine ⟨?_, ?_, ?_⟩
  · exact ((token_check_order_spec "k" emptyAdmissionDB "tok" 10 1 (by decide)).1
      (by rfl)).1
  · exact ((token_check_order_spec "k" usedExpiredDB "tok" 10 1 (by decide)).2
      usedExpiredToken hfind).1 (by rfl)
  · exact ((token_check_order_spec "k" usedExpiredDB "tok" 10 1 (by decide)).2
      usedExpiredToken hfind).2.2.2.1 (by rfl)

/-- **C9**: for every non-empty raw token, verifying the token against its own
freshly computed hash succeeds; and verification fails whenever the raw token
or the stored hash is the empty string — even when the stored hash equals
`hash(raw)`, which happens for `raw = ""`. -/
theorem verify_token_spec (key raw stored : String)
    (hkey : secretKeyOk key = true) :
    (raw ≠ "" → verify_token key raw (computeHashHex key raw) = true) ∧
    (raw = "" ∨ stored = "" → verify_token key raw stored = false) := by
  constructor
  · intro h
    simp [verify_token, string_isEmpty_false h,
      string_isEmpty_false (computeHashHex_ne_empty key raw)]
  · rintro (h | h) <;> simp [verify_token, h, String.isEmpty_iff]

/-- **C9** witness: a concrete round-trip under a 32-character secret key, and
the empty-raw-token case in which the stored hash does equal `hash(raw)` yet
verification still fails. -/
theorem verify_token_spec_witness :
    verify_token "0123456789abcdef0123456789abcdef" "tok"
      (computeHashHex "0123456789abcdef0123456789abcdef" "tok") = true ∧
    verify_token "0123456789abcdef0123456789abcdef" ""
      (computeHashHex "0123456789abcdef0123456789abcdef" "") = false := by
  constructor
  · exact (verify_token_spec "0123456789abcdef0123456789abcdef" "tok"
      "" (by decide)).1 (by decide)
  · exact (verify_token_spec "0123456789abcdef0123456789abcdef" ""
      (computeHashHex "0123456789abcdef0123456789abcdef" "") (by decide)).2
      (Or.inl rfl)

/-- The invariant behind C7: whenever the status claims a score
(`SCORED`/`PUBLISHED`), `score_total` is non-null. -/
def scoreInvariant (a : Attempt) : Prop :=
  a.status.has_score = true → a.score_total ≠ none

/-- One successful transition of the `Attempt` entity API. -/
inductive AttemptStep : Attempt → Attempt → Prop where
  | mark_scanned (a b : Attempt) : a.mark_scanned = .ok b → AttemptStep a b
  | apply_score (a b : Attempt) (s : Int) (c : Option Rat) :
      a.apply_score s c = .ok b → AttemptStep a b
  | publish (a b : Attempt) : a.publish = .ok b → AttemptStep a b
  | invalidate (a b : Attempt) : a.invalidate = .ok b → AttemptStep a b

/-- Reachability through the `Attempt` entity API. -/
def AttemptReachable : Attempt → Attempt → Prop :=
  Relation.ReflTransGen AttemptStep

lemma attemptStep_preserves {a b : Attempt} (h : AttemptStep a b)
    (inv : scoreInvariant a) : scoreInvariant b := by
  cases h with
  | mark_scanned hs =>
    unfold Attempt.mark_scanned at hs
    split at hs
    · exact absurd hs (by simp)
    · rw [Except.ok.injEq] at hs
      subst hs
      intro hc
      simp [AttemptStatus.has_score] at hc
  | apply_score s c hs =>
    unfold Attempt.apply_score at hs
    split at hs
    · exact absurd hs (by simp)
    · split at hs
      · exact absurd hs (by simp)
      · split at hs
        · exact absurd hs (by simp)
        · rw [Except.ok.injEq] at hs
          subst hs
          intro _
          simp
  | publish hs =>
    unfold Attempt.publish at hs
    split at hs
    · exact absurd hs (by simp)
    · rename_i hguard
      rw [Except.ok.injEq] at hs
      subst hs
      intro _
      simp only [Bool.not_eq_true', Bool.not_eq_false] at hguard
      exact inv hguard
  | invalidate hs =>
    unfold Attempt.invalidate at hs
    rw [Except.ok.injEq] at hs
    subst hs
    intro hc
    simp [AttemptStatus.has_score] at hc

lemma attemptReachable_invariant {a0 a : Attempt} (h0 : scoreInvariant a0)
    (h : AttemptReachable a0 a) : scoreInvariant a := by
  induction h with
  | refl => exact h0
  | tail _ hstep ih => exact attemptStep_preserves hstep ih

/-- **C7**: a freshly created attempt satisfies the score invariant; for every
attempt reachable through the entity API from an invariant-satisfying state,
`publish` succeeds only when the status carries a score — in which case
`score_total` is non-null — and every attempt whose status is PUBLISHED has
`score_total ≠ null`. -/
theorem attempt_publish_requires_score :
    (∀ rid v h id a0, Attempt.create rid v h id = .ok a0 → scoreInvariant a0) ∧
    (∀ a0 a, scoreInvariant a0 → AttemptReachable a0 a →
      (∀ b, a.publish = .ok b → a.status.has_score = true ∧ a.score_total ≠ none) ∧
      (a.status = .published → a.score_total ≠ none)) := by
  constructor
  · intro rid v h id a0 hc
    unfold Attempt.create at hc
    split at hc
    · exact absurd hc (by simp)
    · rw [Except.ok.injEq] at hc
      subst hc
      intro hcontra
      simp [AttemptStatus.has_score] at hcontra
  · intro a0 a h0 hreach
    have inv : scoreInvariant a := attemptReachable_invariant h0 hreach
    constructor
    · intro b hb
      unfold Attempt.publish at hb
      split at hb
      · exact absurd hb (by simp)
      · rename_i hguard
        simp only [Bool.not_eq_true', Bool.not_eq_false] at hguard
        exact ⟨hguard, inv hguard⟩
    · intro hp
      exact inv (by rw [hp]; rfl)

/-- A freshly created attempt, its scored successor, and its published
successor, used by the C7 witness. -/
def sampleAttempt0 : Attempt :=
  { registration_id := 1, variant_number := 1, sheet_token_hash := "h", id := 2 }

/-- `sampleAttempt0` after `apply_score 87 None`. -/
def sampleAttemptScored : Attempt :=
  { sampleAttempt0 with status := .scored, score_total := some 87 }

/-- `sampleAttemptScored` after `publish`. -/
def sampleAttemptPublished : Attempt :=
  { sampleAttemptScored with status := .published }

/-- **C7** witness: create → apply_score 87 → publish; the published attempt
has a non-null score. -/
theorem attempt_publish_requires_score_witness :
    sampleAttemptPublished.score_total ≠ none := by
  have hcreate : Attempt.create 1 1 "h" 2 = .ok sampleAttempt0 := rfl
  have h0 : scoreInvariant sampleAttempt0 :=
    attempt_publish_requires_score.1 1 1 "h" 2 _ hcreate
  have hstep1 : AttemptStep sampleAttempt0 sampleAttemptScored :=
    AttemptStep.apply_score _ _ 87 none rfl
  have hstep2 : AttemptStep sampleAttemptScored sampleAttemptPublished :=
    AttemptStep.publish _ _ rfl
  have hreach : AttemptReachable sampleAttempt0 sampleAttemptPublished :=
    Relation.ReflTransGen.tail (Relation.ReflTransGen.single hstep1) hstep2
  exact (attempt_publish_requires_score.2 _ _ h0 hreach).2 rfl

/-- A 32-character secret key used by concrete witnesses. -/
def sampleSecretKey : String := "0123456789abcdef0123456789abcdef"

/-- A published attempt whose sheet-token hash matches QR payload `"qr"`. -/
def publishedAttempt : Attempt :=
  { registration_id := 1, variant_number := 1,
    sheet_token_hash := computeHashHex sampleSecretKey "qr", id := 5,
    status := .published, score_total := some 40, confidence := none }

/-- A printed attempt whose sheet-token hash matches QR payload `"qr"`. -/
def printedAttempt : Attempt :=
  { registration_id := 1, variant_number := 1,
    sheet_token_hash := computeHashHex sampleSecretKey "qr", id := 5 }

/-- A freshly uploaded, unlinked scan row. -/
def sampleScan : Scan := { id := 9, file_path := "scans/9.png" }

/-- **C4** (counterexample to the claim as stated): on a PUBLISHED attempt the
worker still overwrites the score and resets the status to SCORED, although
`Attempt.apply_score` — the mechanism the claim names — rejects that very
update.  The worker therefore does not apply the score via
`Attempt.apply_score`. -/
theorem ocr_direct_write_counterexample :
    (processScanOcrCore sampleSecretKey [publishedAttempt] sampleScan (some "qr")
        { score := some 50, confidence := 9/10, raw_text := "50" } (7/10)).2 =
      [{ publishedAttempt with
          score_total := some 50, confidence := some (9/10),
          status := .scored }] ∧
    publishedAttempt.apply_score 50 (some (9/10)) =
      .error "Cannot apply score in this status" := by
  constructor
  · have hconf : ((some (50 : Int)).isSome && decide ((9/10 : Rat) ≥ 7/10)) = true := by
      norm_num
    simp only [processScanOcrCore, List.find?, beq_self_eq_true, publishedAttempt,
      hconf, if_true, updateAttempt, List.map]
  · rfl

/-- **C4** (amended): when the scan's QR resolves to an attempt, and the OCR
score is non-null with confidence at least the threshold, the worker writes
`score_total`, `confidence` and `status := SCORED` directly onto the attempt
row, whatever its current status (it does not go through
`Attempt.apply_score`); otherwise a PRINTED attempt becomes SCANNED and any
other status is left unchanged; the scan row always receives the OCR fields
and is linked when not yet linked. -/
theorem ocr_worker_apply_spec (key : String) (attempts : List Attempt)
    (scan : Scan) (q : String) (r : OCRResult) (th : Rat) (a : Attempt)
    (hfind : attempts.find? (fun x => x.sheet_token_hash == computeHashHex key q) =
      some a) :
    (r.score.isSome = true → th ≤ r.confidence →
      (processScanOcrCore key attempts scan (some q) r th).2 =
        updateAttempt attempts
          { a with
            score_total := r.score, confidence := some r.confidence,
            status := .scored }) ∧
    (r.score.isSome = false ∨ r.confidence < th → a.status = .printed →
      (processScanOcrCore key attempts scan (some q) r th).2 =
        updateAttempt attempts { a with status := .scanned }) ∧
    (r.score.isSome = false ∨ r.confidence < th → a.status ≠ .printed →
      (processScanOcrCore key attempts scan (some q) r th).2 = attempts) ∧
    (scan.attempt_id = none →
      (processScanOcrCore key attempts scan (some q) r th).1.attempt_id = some a.id) ∧
    (processScanOcrCore key attempts scan (some q) r th).1.ocr_score = r.score ∧
    (processScanOcrCore key attempts scan (some q) r th).1.ocr_confidence =
      some r.confidence := by
  refine ⟨?_, ?_, ?_, ?_, ?_, ?_⟩
  · intro hs hc
    simp [processScanOcrCore, hfind, hs, hc]
  · rintro (h | h) hp
    · simp [processScanOcrCore, hfind, h, hp]
    · simp [processScanOcrCore, hfind, not_le.mpr h, hp]
  · rintro (h | h) hp
    · simp [processScanOcrCore, hfind, h, hp]
    · simp [processScanOcrCore, hfind, not_le.mpr h, hp]
  · intro hl
    simp [processScanOcrCore, hfind, hl]
  · simp [processScanOcrCore, hfind]
  · simp [processScanOcrCore, hfind]

/-- **C4** witness: a below-threshold OCR result on a printed attempt bumps it
to SCANNED and links the scan. -/
theorem ocr_worker_apply_spec_witness :
    (processScanOcrCore sampleSecretKey [printedAttempt] sampleScan (some "qr")
        { score := some 42, confidence := 1/2, raw_text := "42" } (7/10)).2 =
      updateAttempt [printedAttempt] { printedAttempt with status := .scanned } ∧
    (processScanOcrCore sampleSecretKey [printedAttempt] sampleScan (some "qr")
        { score := some 42, confidence := 1/2, raw_text := "42" } (7/10)).1.attempt_id =
      some printedAttempt.id := by
  have hfind : [printedAttempt].find?
      (fun x => x.sheet_token_hash == computeHashHex sampleSecretKey "qr") =
      some printedAttempt := by
    simp [printedAttempt, List.find?]
  have h := ocr_worker_apply_spec sampleSecretKey [printedAttempt] sampleScan "qr"
    { score := some 42, confidence := 1/2, raw_text := "42" } (7/10)
    printedAttempt hfind
  refine ⟨h.2.1 (Or.inr (by norm_num)) rfl, h.2.2.2.1 rfl⟩

/-! ### Lemmas about the seat-search loop -/

lemma countP_le_split (taken : List Nat) (s : Nat) :
    taken.countP (fun x => decide (s ≤ x)) =
      taken.countP (fun x => decide (x = s)) +
        taken.countP (fun x => decide (s + 1 ≤ x)) := by
  induction taken with
  | nil => simp
  | cons a l ih =>
    simp only [List.countP_cons, ih]
    by_cases h : a = s
    · subst h
      simp
      omega
    · by_cases h2 : s ≤ a
      · have h3 : s + 1 ≤ a := by omega
        simp [h, h2, h3]
        omega
      · have h3 : ¬(s + 1 ≤ a) := by omega
        simp [h, h2, h3]

lemma nextFreeFrom_spec (taken : List Nat) :
    ∀ fuel s, taken.countP (fun x => decide (s ≤ x)) < fuel →
      s ≤ nextFreeFrom taken fuel s ∧ nextFreeFrom taken fuel s ∉ taken ∧
        ∀ m, s ≤ m → m < nextFreeFrom taken fuel s → m ∈ taken := by
  intro fuel
  induction fuel with
  | zero => intro s h; omega
  | succ n ih =>
    intro s h
    by_cases hc : taken.contains s = true
    · have hs : s ∈ taken := List.elem_iff.mp hc
      have h1 : 0 < taken.countP (fun x => decide (x = s)) :=
        List.countP_pos_iff.mpr ⟨s, hs, by simp⟩
      have hsplit := countP_le_split taken s
      have hlt : taken.countP (fun x => decide (s + 1 ≤ x)) < n := by omega
      obtain ⟨h2, h3, h4⟩ := ih (s + 1) hlt
      have heq : nextFreeFrom taken (n + 1) s = nextFreeFrom taken n (s + 1) := by
        show (if taken.contains s = true then nextFreeFrom taken n (s + 1) else s) =
          nextFreeFrom taken n (s + 1)
        rw [if_pos hc]
      rw [heq]
      refine ⟨by omega, h3, fun m hm1 hm2 => ?_⟩
      rcases Nat.eq_or_lt_of_le hm1 with he | hl
      · rwa [← he]
      · exact h4 m hl hm2
    · have heq : nextFreeFrom taken (n + 1) s = s := by
        show (if taken.contains s = true then nextFreeFrom taken n (s + 1) else s) = s
        rw [if_neg hc]
      rw [heq]
      refine ⟨le_rfl, fun hmem => hc (List.elem_iff.mpr hmem), fun m hm1 hm2 => ?_⟩
      omega

lemma findNextSeat_spec (taken : List Nat) :
    1 ≤ findNextSeat taken ∧ findNextSeat taken ∉ taken ∧
      ∀ m, 1 ≤ m → m < findNextSeat taken → m ∈ taken := by
  have h : taken.countP (fun x => decide (1 ≤ x)) < taken.length + 1 :=
    Nat.lt_succ_of_le (List.countP_le_length _)
  exact nextFreeFrom_spec taken (taken.length + 1) 1 h

/-! ### Lemmas about the room-selection loop -/

/-- Room `r1` is at least as good as `r2` for the scheduler: strictly fewer
same-institution occupants, or equally many and at least as many free seats. -/
def roomLexLE (db : SeatingDB) (inst : Option Uuid) (r1 r2 : Room) : Prop :=
  db.sameInstCount inst r1 < db.sameInstCount inst r2 ∨
    (db.sameInstCount inst r1 = db.sameInstCount inst r2 ∧
      db.freeSeats r2 ≤ db.freeSeats r1)

/-- Invariant of the room-selection loop. -/
def RoomAccInv (db : SeatingDB) (inst : Option Uuid) (processed : List Room)
    (acc : RoomAcc) : Prop :=
  (acc.best_room = none ∧ acc.best_same = none ∧
    ∀ r ∈ processed, db.freeSeats r ≤ 0) ∨
  (∃ r, acc.best_room = some r ∧ acc.best_same = some (db.sameInstCount inst r) ∧
    acc.best_free = db.freeSeats r ∧ r ∈ processed ∧ 0 < db.freeSeats r ∧
    ∀ r2 ∈ processed, 0 < db.freeSeats r2 → roomLexLE db inst r r2)

lemma roomStep_inv {db : SeatingDB} {inst : Option Uuid} {processed : List Room}
    {acc : RoomAcc} (hinv : RoomAccInv db inst processed acc) (room : Room) :
    RoomAccInv db inst (processed ++ [room]) (roomStep db inst acc room) := by
  unfold roomStep
  by_cases hfree : db.freeSeats room ≤ 0
  · simp only [hfree, if_true]
    rcases hinv with ⟨h1, h2, h3⟩ | ⟨r, h1, h2, h3, h4, h5, h6⟩
    · exact Or.inl ⟨h1, h2, fun r2 hr2 => by
        rcases List.mem_append.mp hr2 with h | h
        · exact h3 r2 h
        · rw [List.mem_singleton.mp h]; exact hfree⟩
    · refine Or.inr ⟨r, h1, h2, h3, List.mem_append_left _ h4, h5, fun r2 hr2 hf2 => ?_⟩
      rcases List.mem_append.mp hr2 with h | h
      · exact h6 r2 h hf2
      · rw [List.mem_singleton.mp h] at hf2; omega
  · simp only [hfree, if_false]
    push_neg at hfree
    by_cases hbet : roomBetter (db.sameInstCount inst room) (db.freeSeats room) acc = true
    · simp only [hbet, if_true]
      refine Or.inr ⟨room, rfl, rfl, rfl, List.mem_append_right _ (List.mem_singleton.mpr rfl),
        hfree, fun r2 hr2 hf2 => ?_⟩
      rcases List.mem_append.mp hr2 with h | h
      · rcases hinv with ⟨h1, h2, h3⟩ | ⟨b, h1, h2, h3, h4, h5, h6⟩
        · exact absurd (h3 r2 h) (by omega)
        · have hbb := h6 r2 h hf2
          unfold roomBetter at hbet
          rw [h2, h3] at hbet
          simp only [Bool.or_eq_true, decide_eq_true_eq, Bool.and_eq_true,
            beq_iff_eq] at hbet
          unfold roomLexLE at hbb ⊢
          rcases hbet with hlt | ⟨heq, hgt⟩
          · rcases hbb with hlt2 | ⟨heq2, hle2⟩
            · exact Or.inl (by omega)
            · exact Or.inl (by omega)
          · rcases hbb with hlt2 | ⟨heq2, hle2⟩
            · exact Or.inl (by omega)
            · exact Or.inr ⟨by omega, by omega⟩
      · rw [List.mem_singleton.mp h]
        exact Or.inr ⟨rfl, le_rfl⟩
    · simp only [hbet, if_false]
      rcases hinv with ⟨h1, h2, h3⟩ | ⟨b, h1, h2, h3, h4, h5, h6⟩
      · exfalso
        apply hbet
        unfold roomBetter
        rw [h2]
      · refine Or.inr ⟨b, h1, h2, h3, List.mem_append_left _ h4, h5,
          fun r2 hr2 hf2 => ?_⟩
        rcases List.mem_append.mp hr2 with h | h
        · exact h6 r2 h hf2
        · rw [List.mem_singleton.mp h]
          unfold roomBetter at hbet
          rw [h2, h3] at hbet
          simp only [Bool.or_eq_true, decide_eq_true_eq, Bool.and_eq_true,
            beq_iff_eq, not_or, not_and, Bool.not_eq_true] at hbet
          unfold roomLexLE
          obtain ⟨hb1, hb2⟩ := hbet
          rcases Nat.lt_or_ge (db.sameInstCount inst b) (db.sameInstCount inst room)
            with hlt | hge
          · exact Or.inl hlt
          · have heq : db.sameInstCount inst room = db.sameInstCount inst b := by omega
            refine Or.inr ⟨heq.symm, ?_⟩
            have := hb2 heq
            omega

lemma foldl_roomStep_inv (db : SeatingDB) (inst : Option Uuid) :
    ∀ rooms processed acc, RoomAccInv db inst processed acc →
      RoomAccInv db inst (processed ++ rooms)
        (rooms.foldl (roomStep db inst) acc) := by
  intro rooms
  induction rooms with
  | nil => intro processed acc h; simpa using h
  | cons room rest ih =>
    intro processed acc h
    have h2 := ih (processed ++ [room]) (roomStep db inst acc room)
      (roomStep_inv h room)
    simpa [List.append_assoc] using h2

lemma selectRoom_spec (db : SeatingDB) (rooms : List Room) (inst : Option Uuid) :
    (∀ r, selectRoom db rooms inst = some r → r ∈ rooms ∧ 0 < db.freeSeats r ∧
      ∀ r2 ∈ rooms, 0 < db.freeSeats r2 → roomLexLE db inst r r2) ∧
    (selectRoom db rooms inst = none → ∀ r ∈ rooms, db.freeSeats r ≤ 0) := by
  have h0 : RoomAccInv db inst [] ⟨none, none, -1⟩ := Or.inl ⟨rfl, rfl, by simp⟩
  have h := foldl_roomStep_inv db inst rooms [] ⟨none, none, -1⟩ h0
  rw [List.nil_append] at h
  constructor
  · intro r hr
    unfold selectRoom at hr
    rcases h with ⟨h1, _, _⟩ | ⟨b, h1, _, _, h4, h5, h6⟩
    · rw [h1] at hr; exact absurd hr (by simp)
    · rw [h1] at hr
      rw [Option.some.injEq] at hr
      subst hr
      exact ⟨h4, h5, h6⟩
  · intro hr
    unfold selectRoom at hr
    rcases h with ⟨_, _, h3⟩ | ⟨b, h1, _, _, _, _, _⟩
    · exact h3
    · rw [h1] at hr; exact absurd hr (by simp)

/-- Success-path characterisation of `assignSeat` when no assignment exists
yet for the registration. -/
lemma assignSeat_new_ok {db : SeatingDB} {rid cid : Uuid} {V : Nat} {nid : Uuid}
    {s2 : List SeatAssignment} {res : AssignSeatResult}
    (hnot : db.seatByRegistration rid = none)
    (hok : assignSeat db rid cid V nid = .ok (s2, some res)) :
    ∃ reg part room,
      db.registrations.find? (fun r => r.id == rid) = some reg ∧
      db.participants.find? (fun p => p.id == reg.participant_id) = some part ∧
      selectRoom db (db.roomsByCompetition cid) part.institution_id = some room ∧
      res = ⟨nid, room.id, room.name, findNextSeat (db.takenSeats room.id),
        findNextSeat (db.takenSeats room.id) % V + 1⟩ ∧
      s2 = db.seats ++ [⟨rid, room.id, findNextSeat (db.takenSeats room.id),
        findNextSeat (db.takenSeats room.id) % V + 1, nid⟩] := by
  unfold assignSeat at hok
  rw [hnot] at hok
  simp only [] at hok
  split at hok
  · simp at hok
  · cases hreg : db.registrations.find? (fun r => r.id == rid) with
    | none => rw [hreg] at hok; simp at hok
    | some reg =>
      rw [hreg] at hok
      simp only [] at hok
      cases hpart : db.participants.find? (fun p => p.id == reg.participant_id) with
      | none => rw [hpart] at hok; simp at hok
      | some part =>
        rw [hpart] at hok
        simp only [] at hok
        cases hsel : selectRoom db (db.roomsByCompetition cid)
            part.institution_id with
        | none => rw [hsel] at hok; simp at hok
        | some room =>
          rw [hsel] at hok
          simp only [] at hok
          cases hcr : SeatAssignment.create rid room.id
              (findNextSeat (db.takenSeats room.id))
              (findNextSeat (db.takenSeats room.id) % V + 1) nid with
          | error e => rw [hcr] at hok; simp at hok
          | ok assignment =>
            rw [hcr] at hok
            simp only [Except.ok.injEq, Prod.mk.injEq, Option.some.injEq] at hok
            obtain ⟨hs2, hres⟩ := hok
            have hseat : 1 ≤ findNextSeat (db.takenSeats room.id) :=
              (findNextSeat_spec _).1
            have hassign : (⟨rid, room.id, findNextSeat (db.takenSeats room.id),
                findNextSeat (db.takenSeats room.id) % V + 1, nid⟩ :
                  SeatAssignment) = assignment := by
              unfold SeatAssignment.create at hcr
              rw [if_neg (by omega), if_neg (by omega)] at hcr
              rw [Except.ok.injEq] at hcr
              exact hcr
            refine ⟨reg, part, room, rfl, hpart, hsel, ?_, ?_⟩
            · rw [← hres, ← hassign]
            · rw [← hs2, ← hassign]

/-- **C5** (counterexample to the claim as stated): with `V = 2` the first
seat of an empty room gets `seat_number = 1` and
`variant_number = (1 % 2) + 1 = 2`, whereas the claimed formula
`((seat − 1) mod V) + 1` yields 1. -/
theorem variant_formula_counterexample :
    (assignSeat ⟨[⟨10, "A", 2, 100⟩], [], [⟨201, 10, 301, .pending⟩],
        [⟨401, "P", "S", none, none, 201⟩]⟩ 301 10 2 901).map
      (fun p => p.2.map (fun r => (r.seat_number, r.variant_number))) =
      .ok (some (1, 2)) ∧
    (1 - 1) % 2 + 1 = 1 ∧ (2 : Nat) ≠ 1 := by
  refine ⟨by rfl, by decide, by decide⟩

/-- **C5** (amended): every seat assignment newly produced by the scheduler
satisfies `variant_number = (seat_number % V) + 1` (the formula implemented in
`assign_seat.py` step 6). -/
theorem assign_seat_variant_formula {db : SeatingDB} {rid cid : Uuid} {V : Nat}
    {nid : Uuid} {s2 : List SeatAssignment} {res : AssignSeatResult}
    (hnot : db.seatByRegistration rid = none)
    (hok : assignSeat db rid cid V nid = .ok (s2, some res)) :
    res.variant_number = res.seat_number % V + 1 := by
  obtain ⟨reg, part, room, _, _, _, hres, _⟩ := assignSeat_new_ok hnot hok
  rw [hres]

/-- The database used by the seating witnesses: one room of capacity 10 with
seats 1, 2 and 4 taken. -/
def seatGapDB : SeatingDB :=
  ⟨[⟨10, "A", 10, 100⟩],
   [⟨311, 100, 1, 2, 900⟩, ⟨312, 100, 2, 1, 902⟩, ⟨313, 100, 4, 1, 903⟩],
   [⟨201, 10, 301, .pending⟩],
   [⟨401, "P", "S", none, none, 201⟩]⟩

/-- The scheduler's answer on `seatGapDB`: the gap seat 3, variant
`(3 % 4) + 1 = 4`. -/
def seatGapRes : AssignSeatResult := ⟨905, 100, "A", 3, 4⟩

/-- **C5** witness: on `seatGapDB` the produced assignment has seat 3 and
variant `(3 % 4) + 1 = 4`. -/
theorem assign_seat_variant_formula_witness :
    seatGapRes.variant_number = seatGapRes.seat_number % 4 + 1 := by
  have hok : assignSeat seatGapDB 301 10 4 905 =
      .ok (seatGapDB.seats ++ [⟨301, 100, 3, 4, 905⟩], some seatGapRes) := by rfl
  exact assign_seat_variant_formula (by rfl) hok

/-- **C6**: when the scheduler newly places a registration, the chosen room
has free capacity and minimises the same-institution occupant count (0 when
the participant has no institution) among rooms with free capacity, ties
broken by maximal free seats (`roomLexLE`); the assigned seat is the smallest
positive number not already taken in that room; and when the competition has
rooms but none has free capacity the scheduler fails with NoFreeSeats. -/
theorem assign_seat_spec (db : SeatingDB) (rid cid : Uuid) (V : Nat) (nid : Uuid) :
    (∀ s2 res, db.seatByRegistration rid = none →
      assignSeat db rid cid V nid = .ok (s2, some res) →
      ∃ reg part room,
        db.registrations.find? (fun r => r.id == rid) = some reg ∧
        db.participants.find? (fun p => p.id == reg.participant_id) = some part ∧
        room ∈ db.roomsByCompetition cid ∧
        0 < db.freeSeats room ∧
        (∀ r2 ∈ db.roomsByCompetition cid, 0 < db.freeSeats r2 →
          roomLexLE db part.institution_id room r2) ∧
        res.room_id = room.id ∧ res.room_name = room.name ∧
        1 ≤ res.seat_number ∧
        res.seat_number ∉ db.takenSeats room.id ∧
        (∀ m, 1 ≤ m → m < res.seat_number → m ∈ db.takenSeats room.id) ∧
        s2 = db.seats ++ [⟨rid, room.id, res.seat_number, res.variant_number, nid⟩]) ∧
    (∀ reg part, db.seatByRegistration rid = none →
      db.roomsByCompetition cid ≠ [] →
      db.registrations.find? (fun r => r.id == rid) = some reg →
      db.participants.find? (fun p => p.id == reg.participant_id) = some part →
      (∀ r ∈ db.roomsByCompetition cid, db.freeSeats r ≤ 0) →
      assignSeat db rid cid V nid = .error .noFreeSeats) := by
  constructor
  · intro s2 res hnot hok
    obtain ⟨reg, part, room, hreg, hpart, hsel, hres, hs2⟩ :=
      assignSeat_new_ok hnot hok
    obtain ⟨hmem, hfree, hlex⟩ :=
      (selectRoom_spec db (db.roomsByCompetition cid) part.institution_id).1
        room hsel
    obtain ⟨hseat1, hseat2, hseat3⟩ := findNextSeat_spec (db.takenSeats room.id)
    refine ⟨reg, part, room, hreg, hpart, hmem, hfree, hlex, ?_, ?_, ?_, ?_, ?_, ?_⟩
    · rw [hres]
    · rw [hres]
    · rw [hres]; exact hseat1
    · rw [hres]; exact hseat2
    · rw [hres]; exact hseat3
    · rw [hs2, hres]
  · intro reg part hnot hne hreg hpart hall
    unfold assignSeat
    rw [hnot]
    simp only []
    rw [if_neg (by simp [List.isEmpty_iff, hne]), hreg]
    simp only []
    rw [hpart]
    simp only []
    cases hsel : selectRoom db (db.roomsByCompetition cid) part.institution_id with
    | none => rfl
    | some room =>
      obtain ⟨hmem, hfree, _⟩ :=
        (selectRoom_spec db (db.roomsByCompetition cid) part.institution_id).1
          room hsel
      exact absurd (hall room hmem) (by omega)

/-- A competition whose single room is full. -/
def fullRoomDB : SeatingDB :=
  ⟨[⟨10, "A", 1, 100⟩], [⟨311, 100, 1, 1, 900⟩], [⟨201, 10, 301, .pending⟩],
   [⟨401, "P", "S", none, none, 201⟩]⟩

/-- **C6** witness: on `seatGapDB` the placement chooses the only room, fills
gap seat 3, and appends exactly one assignment; on `fullRoomDB` the scheduler
fails with NoFreeSeats. -/
theorem assign_seat_spec_witness :
    (∃ reg part room,
      seatGapDB.registrations.find? (fun r => r.id == 301) = some reg ∧
      seatGapDB.participants.find? (fun p => p.id == reg.participant_id) =
        some part ∧
      room ∈ seatGapDB.roomsByCompetition 10 ∧
      0 < seatGapDB.freeSeats room ∧
      (∀ r2 ∈ seatGapDB.roomsByCompetition 10, 0 < seatGapDB.freeSeats r2 →
        roomLexLE seatGapDB part.institution_id room r2) ∧
      seatGapRes.room_id = room.id ∧ seatGapRes.room_name = room.name ∧
      1 ≤ seatGapRes.seat_number ∧
      seatGapRes.seat_number ∉ seatGapDB.takenSeats room.id ∧
      (∀ m, 1 ≤ m → m < seatGapRes.seat_number →
        m ∈ seatGapDB.takenSeats room.id) ∧
      seatGapDB.seats ++ [⟨301, 100, 3, 4, 905⟩] =
        seatGapDB.seats ++ [⟨301, room.id, seatGapRes.seat_number,
          seatGapRes.variant_number, 905⟩]) ∧
    assignSeat fullRoomDB 301 10 2 901 = .error .noFreeSeats := by
  constructor
  · exact (assign_seat_spec seatGapDB 301 10 4 905).1
      (seatGapDB.seats ++ [⟨301, 100, 3, 4, 905⟩]) seatGapRes (by rfl) (by rfl)
  · exact (assign_seat_spec fullRoomDB 301 10 2 901).2
      ⟨201, 10, 301, .pending⟩ ⟨401, "P", "S", none, none, 201⟩
      (by rfl) (by decide) (by rfl) (by rfl) (by decide)

/-- Projection of a result entry back to its query row. -/
def ResultEntry.toRow (e : ResultEntry) : ResultRow :=
  ⟨e.score, e.participant_name, e.school, e.grade⟩

/-- **C8**: for an existing competition whose status is not PUBLISHED, the
public results operation fails with ResultsNotPublished; on success the
returned entries are a permutation of exactly the qualifying join rows
(attempts of the competition with status SCORED or PUBLISHED and non-null
score), their scores are sorted descending, and ranks run 1, 2, … in
iteration order. -/
theorem published_results_spec (db : AdmissionDB) (cid : Uuid) :
    (∀ comp, db.competitions.find? (fun c => c.id == cid) = some comp →
      comp.status ≠ .published →
      get_published_results db cid = .error .resultsNotPublished) ∧
    (∀ resp, get_published_results db cid = .ok resp →
      ∃ comp, db.competitions.find? (fun c => c.id == cid) = some comp ∧
        comp.status = .published ∧
        (resp.results.map ResultEntry.toRow).Perm (resultsQueryRows db cid) ∧
        List.Sorted (· ≥ ·) (resp.results.map (fun e => e.score.getD 0)) ∧
        resp.results.map (fun e => e.rank) = List.range' 1 resp.results.length ∧
        resp.total_participants = resp.results.length ∧
        (∀ row, row ∈ resultsQueryRows db cid ↔
          ∃ a ∈ db.attempts, ∃ r ∈ db.registrations, ∃ p ∈ db.participants,
            a.registration_id = r.id ∧ r.competition_id = cid ∧
            r.participant_id = p.id ∧
            (a.status = .scored ∨ a.status = .published) ∧
            a.score_total.isSome = true ∧
            row = ⟨a.score_total, p.full_name, p.school, p.grade⟩)) := by
  constructor
  · intro comp hcomp hstatus
    unfold get_published_results
    rw [hcomp]
    simp only []
    rw [if_pos hstatus]
  · intro resp hok
    cases hcomp : db.competitions.find? (fun c => c.id == cid) with
    | none => unfold get_published_results at hok; rw [hcomp] at hok; simp at hok
    | some comp =>
      unfold get_published_results at hok
      rw [hcomp] at hok
      simp only [] at hok
      split at hok
      · exact absurd hok (by simp)
      · rename_i hpub
        push_neg at hpub
        rw [Except.ok.injEq] at hok
        subst hok
        have hsortp : (sortRowsDesc (resultsQueryRows db cid)).Perm
            (resultsQueryRows db cid) := List.perm_insertionSort _ _
        have hsorted : List.Sorted
            (fun x y : ResultRow => y.score_total.getD 0 ≤ x.score_total.getD 0)
            (sortRowsDesc (resultsQueryRows db cid)) := by
          haveI ht : IsTotal ResultRow
              (fun x y => y.score_total.getD 0 ≤ x.score_total.getD 0) :=
            ⟨fun a b => le_total _ _⟩
          haveI htr : IsTrans ResultRow
              (fun x y => y.score_total.getD 0 ≤ x.score_total.getD 0) :=
            ⟨fun a b c hab hbc => le_trans hbc hab⟩
          exact List.sorted_insertionSort _ _
        refine ⟨comp, rfl, hpub, ?_, ?_, ?_, ?_, ?_⟩
        · simp only [List.map_map]
          have : (ResultEntry.toRow ∘ fun ir : Nat × ResultRow =>
              ({ rank := ir.1, participant_name := ir.2.full_name,
                 school := ir.2.school, grade := ir.2.grade,
                 score := ir.2.score_total, max_score := comp.max_score } :
                ResultEntry)) = Prod.snd := by
            funext ir
            rfl
          rw [this, List.enumFrom_map_snd]
          exact hsortp
        · simp only [List.map_map]
          have : ((fun e : ResultEntry => e.score.getD 0) ∘ fun ir : Nat × ResultRow =>
              ({ rank := ir.1, participant_name := ir.2.full_name,
                 school := ir.2.school, grade := ir.2.grade,
                 score := ir.2.score_total, max_score := comp.max_score } :
                ResultEntry)) =
              (fun row : ResultRow => row.score_total.getD 0) ∘ Prod.snd := by
            funext ir
            rfl
          rw [this, ← List.map_map, List.enumFrom_map_snd]
          rw [List.Sorted, List.pairwise_map]
          exact hsorted
        · simp only [List.map_map, List.length_map]
          have : ((fun e : ResultEntry => e.rank) ∘ fun ir : Nat × ResultRow =>
              ({ rank := ir.1, participant_name := ir.2.full_name,
                 school := ir.2.school, grade := ir.2.grade,
                 score := ir.2.score_total, max_score := comp.max_score } :
                ResultEntry)) = Prod.fst := by
            funext ir
            rfl
          rw [this, List.enumFrom_map_fst]
          congr 1
          have hlen : (List.enumFrom 1 (sortRowsDesc (resultsQueryRows db cid))).length =
              (sortRowsDesc (resultsQueryRows db cid)).length := by
            rw [← List.enumFrom_map_snd 1 (sortRowsDesc (resultsQueryRows db cid)),
              List.length_map, List.enumFrom_map_snd]
          omega
        · simp [List.length_map]
        · intro row
          unfold resultsQueryRows
          simp only [List.mem_flatMap, List.mem_filter, List.mem_filterMap,
            Bool.and_eq_true, beq_iff_eq]
          constructor
          · rintro ⟨a, ha, r, ⟨hr, hrid, hrc⟩, p, ⟨hp, hpid⟩, hval⟩
            split at hval
            · rename_i hcond
              simp only [Bool.and_eq_true, Bool.or_eq_true, beq_iff_eq] at hcond
              rw [Option.some.injEq] at hval
              exact ⟨a, ha, r, hr, p, hp, hrid, hrc, hpid, hcond.1, hcond.2,
                hval.symm⟩
            · exact absurd hval (by simp)
          · rintro ⟨a, ha, r, hr, p, hp, hrid, hrc, hpid, hst, hsc, hrow⟩
            refine ⟨a, ha, r, ⟨hr, hrid, hrc⟩, p, ⟨hp, hpid⟩, ?_⟩
            rw [hrow]
            rcases hst with h | h <;> simp [h, hsc]

/-- A published competition with two scored attempts (Alice 50, Bob 87). -/
def resultsDB : AdmissionDB :=
  { emptyAdmissionDB with
    registrations := [⟨201, 10, 301, .completed⟩, ⟨202, 10, 302, .completed⟩],
    competitions := [⟨"Math", 4, 100, 1, 10, .published⟩],
    attempts := [⟨301, 1, "hash1", 601, .scored, some 50, none, none⟩,
                 ⟨302, 2, "hash2", 602, .scored, some 87, none, none⟩],
    participants := [⟨701, "Alice", "S1", some 9, none, 201⟩,
                     ⟨702, "Bob", "S2", some 10, none, 202⟩] }

/-- The same data before publication (status CHECKING). -/
def resultsDBChecking : AdmissionDB :=
  { resultsDB with competitions := [⟨"Math", 4, 100, 1, 10, .checking⟩] }

/-- The response computed on `resultsDB`: Bob (87) ranked 1, Alice (50)
ranked 2. -/
def resultsResp : CompetitionResultsResponse :=
  ⟨10, "Math", [⟨1, "Bob", "S2", some 10, some 87, 100⟩,
                ⟨2, "Alice", "S1", some 9, some 50, 100⟩], 2⟩

/-- **C8** witness: on the published fixture the endpoint returns ranks 1, 2
with descending scores and exactly the two qualifying rows; before
publication it fails with ResultsNotPublished. -/
theorem published_results_spec_witness :
    (∃ comp, resultsDB.competitions.find? (fun c => c.id == 10) = some comp ∧
      comp.status = .published ∧
      (resultsResp.results.map ResultEntry.toRow).Perm
        (resultsQueryRows resultsDB 10) ∧
      List.Sorted (· ≥ ·) (resultsResp.results.map (fun e => e.score.getD 0)) ∧
      resultsResp.results.map (fun e => e.rank) =
        List.range' 1 resultsResp.results.length ∧
      resultsResp.total_participants = resultsResp.results.length ∧
      (∀ row, row ∈ resultsQueryRows resultsDB 10 ↔
        ∃ a ∈ resultsDB.attempts, ∃ r ∈ resultsDB.registrations,
          ∃ p ∈ resultsDB.participants,
            a.registration_id = r.id ∧ r.competition_id = 10 ∧
            r.participant_id = p.id ∧
            (a.status = .scored ∨ a.status = .published) ∧
            a.score_total.isSome = true ∧
            row = ⟨a.score_total, p.full_name, p.school, p.grade⟩)) ∧
    get_published_results resultsDBChecking 10 = .error .resultsNotPublished := by
  constructor
  · exact (published_results_spec resultsDB 10).2 resultsResp (by rfl)
  · exact (published_results_spec resultsDBChecking 10).1
      ⟨"Math", 4, 100, 1, 10, .checking⟩ (by rfl) (by decide)

/-- **C10**: when the stored EntryToken has a falsy `raw_token` (missing or
empty) — and, for `GET /registrations/{id}`, also when no EntryToken row
exists — the participant-facing endpoints return `str(registration.id)` in
the `entry_token` field; and any string whose hash differs from the stored
token hash fails verification. -/
theorem registration_entry_token_fallback (key : String) (db : AdmissionDB)
    (participant : Participant) (rid : Uuid) (skip limit : Nat) :
    (∀ reg et, db.registrations.find? (fun r => r.id == rid) = some reg →
      reg.participant_id = participant.id →
      db.entryTokenByRegistration rid = some et →
      rawTokenTruthy et.raw_token = false →
      get_registration db participant rid = .ok
        { id := reg.id, participant_id := reg.participant_id,
          competition_id := reg.competition_id, status := reg.status,
          entry_token := some (toString reg.id) }) ∧
    (∀ reg, db.registrations.find? (fun r => r.id == rid) = some reg →
      reg.participant_id = participant.id →
      db.entryTokenByRegistration rid = none →
      get_registration db participant rid = .ok
        { id := reg.id, participant_id := reg.participant_id,
          competition_id := reg.competition_id, status := reg.status,
          entry_token := some (toString reg.id) }) ∧
    (∀ item, item ∈ get_my_registrations db participant skip limit →
      ∀ et, db.entryTokenByRegistration item.id = some et →
      rawTokenTruthy et.raw_token = false →
      item.entry_token = some (toString item.id)) ∧
    (∀ s stored, computeHashHex key s ≠ stored →
      verify_token key s stored = false) := by
  refine ⟨?_, ?_, ?_, ?_⟩
  · intro reg et hreg hown het htruthy
    unfold get_registration
    rw [hreg]
    simp only []
    rw [if_neg (by simp [hown]), het]
    simp [htruthy]
  · intro reg hreg hown het
    unfold get_registration
    rw [hreg]
    simp only []
    rw [if_neg (by simp [hown]), het]
  · intro item hitem et het htruthy
    unfold get_my_registrations at hitem
    simp only [List.mem_map] at hitem
    obtain ⟨r, hr, hitem⟩ := hitem
    subst hitem
    simp only [] at het ⊢
    rw [het]
    simp [htruthy]
  · intro s stored hne
    unfold verify_token
    split
    · rfl
    · simp [hne]

/-- A stored EntryToken that kept no raw token (legacy row). -/
def legacyEntryToken : EntryToken :=
  { token_hash := computeHashHex sampleSecretKey "legacy",
    registration_id := 301, expires_at := 100, id := 11, raw_token := none }

/-- A registration whose stored EntryToken kept no raw token. -/
def legacyTokenDB : AdmissionDB :=
  { emptyAdmissionDB with
    registrations := [⟨201, 10, 301, .pending⟩],
    entry_tokens := [legacyEntryToken] }

/-- The owning participant of the legacy registration. -/
def legacyParticipant : Participant := ⟨401, "P", "S", none, none, 201⟩

/-- The response row built for the legacy registration by the list
endpoint. -/
def legacyItem : RegistrationResponse :=
  { id := 301, participant_id := 201, competition_id := 10,
    status := .pending, entry_token := some "301" }

set_option maxRecDepth 100000 in
/-- **C10** witness: the detail endpoint returns `"301"` (the id rendered as
a string) for the legacy registration, the list endpoint does the same, and
`"301"` does not verify against the stored hash (computed concretely). -/
theorem registration_entry_token_fallback_witness :
    get_registration legacyTokenDB legacyParticipant 301 = .ok
      { id := 301, participant_id := 201, competition_id := 10,
        status := .pending, entry_token := some "301" } ∧
    legacyItem ∈ get_my_registrations legacyTokenDB legacyParticipant 0 100 ∧
    legacyItem.entry_token = some (toString legacyItem.id) ∧
    verify_token sampleSecretKey "301"
      (computeHashHex sampleSecretKey "legacy") = false := by
  have hfind : legacyTokenDB.entryTokenByRegistration 301 = some legacyEntryToken := by
    simp [legacyTokenDB, AdmissionDB.entryTokenByRegistration, List.find?,
      emptyAdmissionDB, legacyEntryToken]
  have hmem : legacyItem ∈ get_my_registrations legacyTokenDB legacyParticipant 0 100 := by
    rw [show get_my_registrations legacyTokenDB legacyParticipant 0 100 =
      [legacyItem] from by rfl]
    exact List.mem_singleton.mpr rfl
  refine ⟨?_, hmem, ?_, ?_⟩
  · exact (registration_entry_token_fallback sampleSecretKey legacyTokenDB
      legacyParticipant 301 0 100).1 ⟨201, 10, 301, .pending⟩ legacyEntryToken
      (by rfl) (by rfl) hfind (by rfl)
  · exact (registration_entry_token_fallback sampleSecretKey legacyTokenDB
      legacyParticipant 301 0 100).2.2.1 legacyItem hmem legacyEntryToken
      hfind (by rfl)
  · exact (registration_entry_token_fallback sampleSecretKey legacyTokenDB
      legacyParticipant 301 0 100).2.2.2 "301"
      (computeHashHex sampleSecretKey "legacy") (by decide)

/-- Success-path effects of `approveAdmission` on the attempt and answer-sheet
tables: exactly one new attempt and one new primary answer sheet are appended,
and both carry the hash of the freshly generated sheet token. -/
lemma approveAdmission_ok_effects {key : String} {db : AdmissionDB}
    {o : ApproveOracle} {rid : Uuid} {raw : String} {adm : Uuid}
    {ip : Option String} {db2 : AdmissionDB} {res : ApproveAdmissionResult}
    (hok : approveAdmission key db o rid raw adm ip = .ok (db2, res)) :
    ∃ A S, db2.attempts = db.attempts ++ [A] ∧
      db2.answer_sheets = db.answer_sheets ++ [S] ∧
      A.registration_id = rid ∧ A.id = o.attempt_id ∧
      A.sheet_token_hash = computeHashHex key o.sheet_token_raw ∧
      S.attempt_id = A.id ∧ S.id = o.answer_sheet_id ∧ S.kind = .primary ∧
      S.sheet_token_hash = computeHashHex key o.sheet_token_raw := by
  unfold approveAdmission at hok
  simp only [bind, Except.bind] at hok
  cases hat : approveTokenChecks
      (db.entryTokenByHash (computeHashHex key raw)) o.now rid with
  | error e => rw [hat] at hok; simp at hok
  | ok et =>
    rw [hat] at hok
    simp only [] at hok
    cases huse : et.use o.now with
    | error e => rw [huse] at hok; simp [Except.mapError] at hok
    | ok et2 =>
      rw [huse] at hok
      simp only [Except.mapError] at hok
      cases hreg : db.registrations.find? (fun r => r.id == rid) with
      | none => rw [hreg] at hok; simp at hok
      | some registration =>
        rw [hreg] at hok
        simp only [] at hok
        cases hadm : registration.admit with
        | error e => rw [hadm] at hok; simp [Except.mapError] at hok
        | ok reg2 =>
          rw [hadm] at hok
          simp only [Except.mapError] at hok
          cases hcomp : db.competitions.find? (fun c => c.id == reg2.competition_id) with
          | none => rw [hcomp] at hok; simp at hok
          | some c =>
            rw [hcomp] at hok
            simp only [] at hok
            cases hseat : assignSeat
                ⟨db.rooms, db.seats, updateRegistration db.registrations reg2,
                  db.participants⟩ rid reg2.competition_id c.variants_count
                o.seat_assignment_id with
            | error e => rw [hseat] at hok; simp at hok
            | ok v =>
              rw [hseat] at hok
              simp only [] at hok
              obtain ⟨seats2, sres⟩ := v
              simp only [] at hok
              cases sres with
              | some sr =>
                simp only [] at hok
                cases hcr : Attempt.create rid (sr.variant_number : Int)
                    (computeHashHex key o.sheet_token_raw) o.attempt_id with
                | error e => rw [hcr] at hok; simp at hok
                | ok att =>
                  rw [hcr] at hok
                  simp only [] at hok
                  unfold Attempt.create at hcr
                  split at hcr
                  · exact absurd hcr (by simp)
                  · rw [Except.ok.injEq] at hcr
                    subst hcr
                    cases hcmpl : reg2.complete with
                    | error e => rw [hcmpl] at hok; simp at hok
                    | ok reg3 =>
                      rw [hcmpl] at hok
                      simp only [Except.ok.injEq, Prod.mk.injEq] at hok
                      obtain ⟨hdb2, hres⟩ := hok
                      refine ⟨⟨rid, (sr.variant_number : Int),
                          computeHashHex key o.sheet_token_raw, o.attempt_id,
                          .printed, none, none,
                          some ("sheets/" ++ toString c.id ++ "/" ++
                            toString o.attempt_id ++ ".pdf")⟩,
                        ⟨o.attempt_id, computeHashHex key o.sheet_token_raw,
                          .primary, o.answer_sheet_id,
                          some ("sheets/" ++ toString c.id ++ "/" ++
                            toString o.attempt_id ++ ".pdf")⟩,
                        ?_, ?_, rfl, rfl, rfl, rfl, rfl, rfl, rfl⟩
                      · rw [← hdb2]
                      · rw [← hdb2]
              | none =>
                simp only [] at hok
                cases hcr : Attempt.create rid (o.random_variant : Int)
                    (computeHashHex key o.sheet_token_raw) o.attempt_id with
                | error e => rw [hcr] at hok; simp at hok
                | ok att =>
                  rw [hcr] at hok
                  simp only [] at hok
                  unfold Attempt.create at hcr
                  split at hcr
                  · exact absurd hcr (by simp)
                  · rw [Except.ok.injEq] at hcr
                    subst hcr
                    cases hcmpl : reg2.complete with
                    | error e => rw [hcmpl] at hok; simp at hok
                    | ok reg3 =>
                      rw [hcmpl] at hok
                      simp only [Except.ok.injEq, Prod.mk.injEq] at hok
                      obtain ⟨hdb2, hres⟩ := hok
                      refine ⟨⟨rid, (o.random_variant : Int),
                          computeHashHex key o.sheet_token_raw, o.attempt_id,
                          .printed, none, none,
                          some ("sheets/" ++ toString c.id ++ "/" ++
                            toString o.attempt_id ++ ".pdf")⟩,
                        ⟨o.attempt_id, computeHashHex key o.sheet_token_raw,
                          .primary, o.answer_sheet_id,
                          some ("sheets/" ++ toString c.id ++ "/" ++
                            toString o.attempt_id ++ ".pdf")⟩,
                        ?_, ?_, rfl, rfl, rfl, rfl, rfl, rfl, rfl⟩
                      · rw [← hdb2]
                      · rw [← hdb2]


/-- **C1**: when Approve succeeds on a registration that had no attempt yet
(and the generated attempt id is fresh), exactly one Attempt and exactly one
primary AnswerSheet for that registration exist afterwards, and both carry
the same sheet-token hash — the hash of the freshly generated sheet token. -/
theorem approve_one_attempt_one_primary_sheet {key : String} {db : AdmissionDB}
    {o : ApproveOracle} {rid : Uuid} {raw : String} {adm : Uuid}
    {ip : Option String} {db2 : AdmissionDB} {res : ApproveAdmissionResult}
    (hok : approveAdmission key db o rid raw adm ip = .ok (db2, res))
    (hA : ∀ a ∈ db.attempts, a.registration_id ≠ rid)
    (hS : ∀ s ∈ db.answer_sheets, s.attempt_id ≠ o.attempt_id) :
    ∃ A S, db2.attempts.filter (fun a => a.registration_id == rid) = [A] ∧
      db2.answer_sheets.filter
        (fun s => s.attempt_id == A.id && (s.kind == SheetKind.primary)) = [S] ∧
      A.sheet_token_hash = S.sheet_token_hash ∧
      S.sheet_token_hash = computeHashHex key o.sheet_token_raw ∧
      S.kind = .primary := by
  obtain ⟨A, S, hatt, hsheets, hAreg, hAid, hAhash, hSatt, hSid, hSkind, hShash⟩ :=
    approveAdmission_ok_effects hok
  refine ⟨A, S, ?_, ?_, by rw [hAhash, hShash], hShash, hSkind⟩
  · rw [hatt, List.filter_append]
    have h1 : db.attempts.filter (fun a => a.registration_id == rid) = [] :=
      List.filter_eq_nil_iff.mpr (fun a ha => by simp [hA a ha])
    have h2 : List.filter (fun a => a.registration_id == rid) [A] = [A] := by
      simp [List.filter, hAreg]
    rw [h1, h2, List.nil_append]
  · rw [hsheets, List.filter_append]
    have h1 : db.answer_sheets.filter
        (fun s => s.attempt_id == A.id && (s.kind == SheetKind.primary)) = [] := by
      refine List.filter_eq_nil_iff.mpr (fun s hs => ?_)
      rw [hAid]
      simp [hS s hs]
    have h2 : List.filter
        (fun s => s.attempt_id == A.id && (s.kind == SheetKind.primary)) [S] =
        [S] := by
      simp [List.filter, hSatt, hSkind]
    rw [h1, h2, List.nil_append]

/-- The valid entry token of the C1 witness run (raw token `"tokA"`). -/
def approveEntryToken : EntryToken :=
  { token_hash := computeHashHex sampleSecretKey "tokA",
    registration_id := 301, expires_at := 100, id := 11,
    raw_token := some "tokA" }

/-- The database state used by the C1 witness: a pending registration with a
valid entry token for raw token `"tokA"`, an in-progress competition, one
room. -/
def approveDB : AdmissionDB :=
  { emptyAdmissionDB with
    entry_tokens := [approveEntryToken],
    registrations := [⟨201, 10, 301, .pending⟩],
    competitions := [⟨"Math", 4, 100, 1, 10, .inProgress⟩],
    rooms := [⟨10, "A", 2, 100⟩],
    participants := [⟨401, "P", "S", none, none, 201⟩] }

/-- The non-deterministic inputs of the C1 witness run. -/
def approveOracle1 : ApproveOracle :=
  { now := 50, sheet_token_raw := "sheetTok", attempt_id := 601,
    answer_sheet_id := 801, seat_assignment_id := 901, random_variant := 3 }

/-- The database state after the C1 witness run: token used, registration
completed, one attempt and one primary sheet for it, one seat, one audit
row. -/
def approveDB2 : AdmissionDB :=
  { approveDB with
    entry_tokens := [{ approveEntryToken with used_at := some 50 }],
    registrations := [⟨201, 10, 301, .completed⟩],
    attempts := [⟨301, 2, computeHashHex sampleSecretKey "sheetTok", 601,
      .printed, none, none, some "sheets/10/601.pdf"⟩],
    answer_sheets := [⟨601, computeHashHex sampleSecretKey "sheetTok", .primary,
      801, some "sheets/10/601.pdf"⟩],
    seats := [⟨301, 100, 1, 2, 901⟩],
    audit_logs := [⟨"registration", 301, "admitted", some 999, none, 2, 601,
      some "A", some 1⟩] }

/-- The result returned by the C1 witness run: seat 1 in room A, variant
`(1 % 4) + 1 = 2`. -/
def approveRes1 : ApproveAdmissionResult :=
  ⟨601, 2, "admission/sheets/601/download", "sheetTok", some "A", some 1⟩

set_option maxRecDepth 200000 in
/-- **C1** witness: a concrete successful approval; afterwards the state holds
exactly one attempt and one primary answer sheet for registration 301, sharing
the sheet-token hash. -/
theorem approve_one_attempt_one_primary_sheet_witness :
    approveAdmission sampleSecretKey approveDB approveOracle1 301 "tokA" 999
      none = .ok (approveDB2, approveRes1) ∧
    ∃ A S, approveDB2.attempts.filter (fun a => a.registration_id == 301) = [A] ∧
      approveDB2.answer_sheets.filter
        (fun s => s.attempt_id == A.id && (s.kind == SheetKind.primary)) = [S] ∧
      A.sheet_token_hash = S.sheet_token_hash ∧
      S.sheet_token_hash = computeHashHex sampleSecretKey
        approveOracle1.sheet_token_raw ∧
      S.kind = .primary := by
  have hp : approveAdmission sampleSecretKey approveDB approveOracle1 301 "tokA"
      999 none = .ok (approveDB2, approveRes1) := by rfl
  exact ⟨hp, approve_one_attempt_one_primary_sheet hp
    (by simp [approveDB, emptyAdmissionDB])
    (by simp [approveDB, emptyAdmissionDB])⟩

end OQR
